import Mathlib

/-!
# Joint row reader of package `sql` (pkg/sql/joint_row_reader.go)

A shallow embedding of `newJointRowReader`, `jointRowReader.Columns`,
`jointRowReader.Read` and `jointRowReader.Close`.

* A Go result pair `(v, err)` is an `Outcome`: `ok v` for `(v, nil)`, `err e` for
  `(nil, e)`, and `panic` when the Go runtime panics (a failed type assertion
  `jspec.ds.(*TableRef)`, a nil `*Table` dereferenced).
* Functions of package `sql` that joint_row_reader.go calls but does not define
  (`referencedTable`, `Alias`, `EncodeSelector`, `jointColumnTo`,
  `ColSelector.resolve`, `EncodeValue`, `DataSource.Resolve`) are the fields of
  `Externals`; every general theorem quantifies over all of them.
* The calls on the base reader (`Columns`, `Read`, `Close`), on a sub-reader (`Read`)
  and to `referencedTable`, `jointColumnTo`, `EncodeValue` and `Resolve` are recorded,
  in program order, in a list of `Event`s returned next to the result, so that
  statements such as "no table was resolved" are statements about that list. The
  getters `ImplicitDB`, `ImplicitTable`, `Alias` and the pure helpers `EncodeSelector`
  and `ColSelector.resolve` are not recorded.
-/

namespace Sql

/-! ## Data model -/

/-- Error values seen by joint_row_reader.go: the four sentinels of package `sql` it
names, `store.ErrNoMoreEntries`, and any other error value a callee may return. -/
inductive SqlError where
  | ErrIllegalArguments
  | ErrUnsupportedJoinType
  | ErrLimitedJoins
  | ErrInvalidJointColumn
  | ErrNoMoreEntries
  | other (msg : String)
  deriving DecidableEq

/-- Result of a Go call returning `(value, error)`, or a runtime panic. -/
inductive Outcome (α : Type) where
  | ok (v : α)
  | err (e : SqlError)
  | panic

/-- The string type `SQLValueType` of package `sql`. -/
abbrev SQLValueType := String

/-- Modelled from the spec: `TypedValue`, the typed value a row holds for a selector
(its declaration is not in joint_row_reader.go). -/
inductive TypedValue where
  | Number (val : Nat)
  | Varchar (val : String)
  | Boolean (val : Bool)
  | Blob (val : List Nat)
  deriving DecidableEq

/-- A Go `map[string]V`, kept as an association list read with `GoMap.get` and
written with `GoMap.set`. -/
abbrev GoMap (V : Type) := List (String × V)

/-- The map read `m[k]` with its presence flag. -/
def GoMap.get {V : Type} : GoMap V → String → Option V
  | [], _ => none
  | (k', v) :: rest, k => if k' = k then some v else GoMap.get rest k

/-- The map write `m[k] = v`: overwrite when the key is present, insert otherwise. -/
def GoMap.set {V : Type} : GoMap V → String → V → GoMap V
  | [], k, v => [(k, v)]
  | (k', v') :: rest, k, v =>
    if k' = k then (k, v) :: rest else (k', v') :: GoMap.set rest k v

/-- The type `map[string]SQLValueType` returned by `Columns()`. -/
abbrev ColDescriptors := GoMap SQLValueType

/-- The struct `Row`: `Values map[string]TypedValue`, keyed by encoded selector. -/
structure Row where
  Values : GoMap TypedValue
  deriving DecidableEq

/-- The struct `Column`, with the two fields the file reads. -/
structure Column where
  colName : String
  colType : SQLValueType
  deriving DecidableEq

/-- The struct `Database`, with the field the file reads. -/
structure Database where
  name : String
  deriving DecidableEq

/-- The struct `Table`: `colsByID` is the Go map `map[uint64]*Column`, listed as
(id, column) pairs in the order a `range` visits them. -/
structure Table where
  db : Database
  name : String
  pk : Column
  colsByID : List (Nat × Column)
  deriving DecidableEq

/-- The struct `TableRef`: a database name, a table name and an optional alias. -/
structure TableRef where
  db : String
  table : String
  as : String
  deriving DecidableEq

/-- The struct `ColSelector`, with the fields the file sets. -/
structure ColSelector where
  db : String
  table : String
  col : String
  deriving DecidableEq

/-- The struct `OrdCol`, with the fields the file sets. -/
structure OrdCol where
  sel : ColSelector
  initKeyVal : List Nat
  useInitKeyVal : Bool
  deriving DecidableEq

/-- Modelled from the spec: the join kind `JoinType` (declared elsewhere in package
`sql`); only `InnerJoin` is supported by this layer. -/
inductive JoinType where
  | InnerJoin
  | LeftJoin
  | RightJoin
  deriving DecidableEq

/-- Modelled from the spec: the join condition expression `BoolExp`, relating a column
of the accumulated row to a column of the joined table (declared elsewhere in package
`sql`). -/
inductive BoolExp where
  | colEq (left right : ColSelector)
  | otherExp (id : Nat)
  deriving DecidableEq

/-- The interface `DataSource` by dynamic type: a `*TableRef`, or any other
implementation (a derived source such as a sub-query). -/
inductive DataSource where
  | tableRef (t : TableRef)
  | derived (id : Nat)
  deriving DecidableEq

/-- The struct `JoinSpec`. -/
structure JoinSpec where
  joinType : JoinType
  ds : DataSource
  cond : BoolExp
  deriving DecidableEq

/-- Modelled from the spec: one stored row of a table in a snapshot, under the encoded
bytes of its primary key, with its values by column name. -/
structure StoredRow where
  db : String
  table : String
  key : List Nat
  cols : List (String × TypedValue)
  deriving DecidableEq

/-- Modelled from the spec: `store.Snapshot`, an immutable point-in-time view over the
key space. -/
structure Snapshot where
  rows : List StoredRow
  deriving DecidableEq

/-- Modelled from the spec: `Engine` (declared elsewhere in package `sql`), reduced to
the Catalog View that table references resolve through. -/
structure Engine where
  implicitDB : String
  catalog : List Table
  deriving DecidableEq

/-- Modelled from the spec: the interface `RowReader`. `columns` is what `Columns()`
returns, `pending` lists what the successive `Read()` calls still to come return,
after which every call returns `store.ErrNoMoreEntries`; `closeErr` is what `Close()`
returns. -/
structure RowReader where
  implicitDB : String
  implicitTable : String
  columns : Except SqlError ColDescriptors
  pending : List (Except SqlError Row)
  closeErr : Option SqlError

/-- The method `RowReader.Read`: the next outcome and the reader after the call. -/
def RowReader.Read (r : RowReader) : Except SqlError Row × RowReader :=
  match r.pending with
  | [] => (.error .ErrNoMoreEntries, r)
  | o :: rest => (o, { r with pending := rest })

/-- The parameter map `map[string]interface{}`. -/
abbrev Params := GoMap TypedValue

/-- Functions of package `sql` called by joint_row_reader.go and defined elsewhere. -/
structure Externals where
  referencedTable : Engine → TableRef → Except SqlError Table
  Alias : TableRef → String
  EncodeSelector : String → String → String → String → String
  jointColumnTo : BoolExp → Column → String → Except SqlError ColSelector
  resolve : ColSelector → String → String → String × String × String × String
  EncodeValue : TypedValue → SQLValueType → Bool → Except SqlError (List Nat)
  asKey : Bool
  Resolve : DataSource → Engine → Option Snapshot → Params → OrdCol →
    Except SqlError RowReader

/-- Calls that leave joint_row_reader.go. `resolve` records whether `Resolve` returned
a reader (a sub-reader was opened); `subClose` stands for `Close()` on a sub-reader,
a call the file never makes. -/
inductive Event where
  | baseColumns
  | baseRead
  | baseClose
  | referencedTable (t : TableRef)
  | jointColumnTo (cond : BoolExp) (pk : Column) (tableAlias : String)
  | encodeValue (v : TypedValue) (t : SQLValueType)
  | resolve (ds : DataSource) (ord : OrdCol) (opened : Bool)
  | subRead (ds : DataSource)
  | subClose (ds : DataSource)
  deriving DecidableEq

/-- The struct `jointRowReader`. -/
structure jointRowReader where
  e : Engine
  snap : Option Snapshot
  rowReader : RowReader
  joins : List JoinSpec
  params : Params

/-! ## newJointRowReader -/

/-- The validation loop of `newJointRowReader` (lines 39-53): the first error met, if
any, and the table resolutions performed. -/
def validateJoins (x : Externals) (e : Engine) : List JoinSpec → Option SqlError × List Event
  | [] => (none, [])
  | jspec :: rest =>
    if jspec.joinType ≠ JoinType.InnerJoin then
      (some .ErrUnsupportedJoinType, [])
    else
      match jspec.ds with
      | .derived _ => (some .ErrLimitedJoins, [])
      | .tableRef tableRef =>
        match x.referencedTable e tableRef with
        | .error err => (some err, [Event.referencedTable tableRef])
        | .ok _ =>
          ((validateJoins x e rest).1,
            Event.referencedTable tableRef :: (validateJoins x e rest).2)

/-- The method `(e *Engine) newJointRowReader(snap, params, rowReader, joins)`. -/
def newJointRowReader (x : Externals) (e : Engine) (snap : Option Snapshot)
    (params : Params) (rowReader : RowReader) (joins : List JoinSpec) :
    Outcome jointRowReader × List Event :=
  if snap.isNone ∨ joins.length = 0 then
    (.err .ErrIllegalArguments, [])
  else
    match validateJoins x e joins with
    | (some err, tr) => (.err err, tr)
    | (none, tr) =>
      (.ok { e := e, snap := snap, params := params, rowReader := rowReader, joins := joins },
        tr)

/-! ## ImplicitDB, ImplicitTable, Columns, Close -/

/-- The method `jointRowReader.ImplicitDB`. -/
def jointRowReader.ImplicitDB (jointr : jointRowReader) : String :=
  jointr.rowReader.implicitDB

/-- The method `jointRowReader.ImplicitTable`. -/
def jointRowReader.ImplicitTable (jointr : jointRowReader) : String :=
  jointr.rowReader.implicitTable

/-- The inner loop of `Columns()` (lines 82-85): one descriptor per column of the
joined table, keyed by (database, alias, column name). -/
def addTableColumns (x : Externals) (table : Table) (tableRef : TableRef)
    (colDescriptors : ColDescriptors) : ColDescriptors :=
  table.colsByID.foldl
    (fun m c =>
      GoMap.set m (x.EncodeSelector "" table.db.name (x.Alias tableRef) c.2.colName) c.2.colType)
    colDescriptors

/-- The outer loop of `Columns()` (lines 78-86). The type assertion panics on a source
that is no `*TableRef`; the error of `referencedTable` is discarded (`table, _ :=`) and
the nil table it comes with is dereferenced by `table.colsByID`. -/
def columnsLoop (x : Externals) (e : Engine) :
    List JoinSpec → ColDescriptors → Outcome ColDescriptors × List Event
  | [], colDescriptors => (.ok colDescriptors, [])
  | jspec :: rest, colDescriptors =>
    match jspec.ds with
    | .derived _ => (.panic, [])
    | .tableRef tableRef =>
      match x.referencedTable e tableRef with
      | .error _ => (.panic, [Event.referencedTable tableRef])
      | .ok table =>
        ((columnsLoop x e rest (addTableColumns x table tableRef colDescriptors)).1,
          Event.referencedTable tableRef ::
            (columnsLoop x e rest (addTableColumns x table tableRef colDescriptors)).2)

/-- The method `jointRowReader.Columns`. -/
def jointRowReader.Columns (x : Externals) (jointr : jointRowReader) :
    Outcome ColDescriptors × List Event :=
  match jointr.rowReader.columns with
  | .error err => (.err err, [Event.baseColumns])
  | .ok colDescriptors =>
    ((columnsLoop x jointr.e jointr.joins colDescriptors).1,
      Event.baseColumns :: (columnsLoop x jointr.e jointr.joins colDescriptors).2)

/-- The method `jointRowReader.Close`: delegates to the base reader. -/
def jointRowReader.Close (jointr : jointRowReader) : Option SqlError × List Event :=
  (jointr.rowReader.closeErr, [Event.baseClose])

/-! ## Read -/

/-- The merge loop of `Read()` (lines 148-150): `row.Values[c] = v` for every entry of
`jrow.Values`, visited in the order the list gives them. -/
def mergeValues (row jrow : Row) : Row :=
  { Values := jrow.Values.foldl (fun m cv => GoMap.set m cv.1 cv.2) row.Values }

/-- How the join loop of `Read()` ends for one base row. -/
inductive JoinResult where
  | solved (row : Row)
  | unsolvedFK
  | fail (e : SqlError)
  | panic
  deriving DecidableEq

/-- The join loop of `Read()` (lines 100-151) for one base row: the accumulated row
when every join found a sub-row, `unsolvedFK` at the first sub-reader that reports
`store.ErrNoMoreEntries`, or the first error. -/
def joinLoop (x : Externals) (jointr : jointRowReader) :
    Row → List JoinSpec → JoinResult × List Event
  | row, [] => (.solved row, [])
  | row, jspec :: rest =>
    match jspec.ds with
    | .derived _ => (.panic, [])
    | .tableRef tableRef =>
      match x.referencedTable jointr.e tableRef with
      | .error err => (.fail err, [Event.referencedTable tableRef])
      | .ok table =>
        match x.jointColumnTo jspec.cond table.pk (x.Alias tableRef) with
        | .error err =>
          (.fail err,
            [Event.referencedTable tableRef,
              Event.jointColumnTo jspec.cond table.pk (x.Alias tableRef)])
        | .ok fkSel =>
          let sel := x.resolve fkSel jointr.rowReader.implicitDB jointr.rowReader.implicitTable
          match GoMap.get row.Values (x.EncodeSelector sel.1 sel.2.1 sel.2.2.1 sel.2.2.2) with
          | none =>
            (.fail .ErrInvalidJointColumn,
              [Event.referencedTable tableRef,
                Event.jointColumnTo jspec.cond table.pk (x.Alias tableRef)])
          | some fkVal =>
            match x.EncodeValue fkVal table.pk.colType x.asKey with
            | .error err =>
              (.fail err,
                [Event.referencedTable tableRef,
                  Event.jointColumnTo jspec.cond table.pk (x.Alias tableRef),
                  Event.encodeValue fkVal table.pk.colType])
            | .ok fkEncVal =>
              let pkOrd : OrdCol :=
                { sel := { db := table.db.name, table := table.name, col := table.pk.colName },
                  initKeyVal := fkEncVal,
                  useInitKeyVal := true }
              match x.Resolve jspec.ds jointr.e jointr.snap jointr.params pkOrd with
              | .error err =>
                (.fail err,
                  [Event.referencedTable tableRef,
                    Event.jointColumnTo jspec.cond table.pk (x.Alias tableRef),
                    Event.encodeValue fkVal table.pk.colType,
                    Event.resolve jspec.ds pkOrd false])
              | .ok jr =>
                match (RowReader.Read jr).1 with
                | .error err =>
                  (if err = SqlError.ErrNoMoreEntries then JoinResult.unsolvedFK
                    else JoinResult.fail err,
                    [Event.referencedTable tableRef,
                      Event.jointColumnTo jspec.cond table.pk (x.Alias tableRef),
                      Event.encodeValue fkVal table.pk.colType,
                      Event.resolve jspec.ds pkOrd true,
                      Event.subRead jspec.ds])
                | .ok jrow =>
                  ((joinLoop x jointr (mergeValues row jrow) rest).1,
                    [Event.referencedTable tableRef,
                      Event.jointColumnTo jspec.cond table.pk (x.Alias tableRef),
                      Event.encodeValue fkVal table.pk.colType,
                      Event.resolve jspec.ds pkOrd true,
                      Event.subRead jspec.ds] ++
                      (joinLoop x jointr (mergeValues row jrow) rest).2)

/-- The outer loop of `Read()` (lines 92-156) over what the base reader still has to
return: the result, what the base reader is left with, and the calls made. Each
iteration starts with `jointr.rowReader.Read()`. -/
def readLoop (x : Externals) (jointr : jointRowReader) :
    List (Except SqlError Row) → Outcome Row × List (Except SqlError Row) × List Event
  | [] => (.err .ErrNoMoreEntries, [], [Event.baseRead])
  | .error err :: rest => (.err err, rest, [Event.baseRead])
  | .ok row :: rest =>
    match joinLoop x jointr row jointr.joins with
    | (.solved row', tr) => (.ok row', rest, Event.baseRead :: tr)
    | (.fail err, tr) => (.err err, rest, Event.baseRead :: tr)
    | (.panic, tr) => (.panic, rest, Event.baseRead :: tr)
    | (.unsolvedFK, tr) =>
      ((readLoop x jointr rest).1, (readLoop x jointr rest).2.1,
        Event.baseRead :: tr ++ (readLoop x jointr rest).2.2)

/-- The method `jointRowReader.Read`: the result, the reader after the call (its base
reader advanced), and the calls made. -/
def jointRowReader.Read (x : Externals) (jointr : jointRowReader) :
    Outcome Row × jointRowReader × List Event :=
  ((readLoop x jointr jointr.rowReader.pending).1,
    { jointr with
      rowReader :=
        { jointr.rowReader with pending := (readLoop x jointr jointr.rowReader.pending).2.1 } },
    (readLoop x jointr jointr.rowReader.pending).2.2)

/-- Rows returned by at most `n` successive `Read()` calls, stopping at the first call
that returns no row. -/
def readAll (x : Externals) : Nat → jointRowReader → List Row
  | 0, _ => []
  | n + 1, jointr =>
    match jointRowReader.Read x jointr with
    | (.ok row, jointr', _) => row :: readAll x n jointr'
    | _ => []

/-! ## The collaborators as the spec describes them -/

/-- Modelled from the spec: the order of encoded keys, byte by byte (the order a
snapshot iterates its keys in). -/
def keyLE : List Nat → List Nat → Bool
  | [], _ => true
  | _ :: _, [] => false
  | a :: as, b :: bs => decide (a < b) || (decide (a = b) && keyLE as bs)

/-- Modelled from the spec: insertion of a stored row into rows ordered by key. -/
def insertByKey (r : StoredRow) : List StoredRow → List StoredRow
  | [] => [r]
  | s :: rest => if keyLE r.key s.key then r :: s :: rest else s :: insertByKey r rest

/-- Modelled from the spec: stored rows ordered by encoded key. -/
def sortByKey : List StoredRow → List StoredRow
  | [] => []
  | r :: rest => insertByKey r (sortByKey rest)

/-- Modelled from the spec: the Catalog View, `referencedTable`. A reference with no
database name is looked up in the engine's implicit database; a table that is not in
the catalog is a resolution error. -/
def specReferencedTable (e : Engine) (t : TableRef) : Except SqlError Table :=
  match e.catalog.find?
      (fun tb => decide (tb.db.name = (if t.db = "" then e.implicitDB else t.db)) &&
        decide (tb.name = t.table)) with
  | some tb => .ok tb
  | none => .error (.other "table does not exist")

/-- Modelled from the spec: `TableRef.Alias`, the alias when one is given and the table
name otherwise. -/
def specAlias (t : TableRef) : String :=
  if t.as = "" then t.table else t.as

/-- Modelled from the spec: the Selector Codec `selector(db, aliasOrTable, column)`,
with the aggregate function in front. -/
def specEncodeSelector (aggFn db table col : String) : String :=
  aggFn ++ "(" ++ db ++ "." ++ table ++ "." ++ col ++ ")"

/-- Modelled from the spec: `jointColumnTo`. An equality with the joined table's
primary key (under the join's alias) on one side yields the selector on the other
side; any other condition is an invalid-join-column error. -/
def specJointColumnTo (cond : BoolExp) (pk : Column) (tableAlias : String) :
    Except SqlError ColSelector :=
  match cond with
  | .colEq left right =>
    if right.table = tableAlias ∧ right.col = pk.colName then .ok left
    else if left.table = tableAlias ∧ left.col = pk.colName then .ok right
    else .error .ErrInvalidJointColumn
  | .otherExp _ => .error .ErrInvalidJointColumn

/-- Modelled from the spec: `ColSelector.resolve`, qualifying an unqualified selector
with the implicit database and table. -/
def specSelResolve (sel : ColSelector) (implicitDB implicitTable : String) :
    String × String × String × String :=
  ("", if sel.db = "" then implicitDB else sel.db,
    if sel.table = "" then implicitTable else sel.table, sel.col)

/-- Modelled from the spec: the Selector Codec `encode(value, declaredType, mode)`,
order-preserving as a key: a number as eight big-endian bytes. Values of other kinds
are not encoded here. -/
def specEncodeValue (v : TypedValue) (_t : SQLValueType) (_asKey : Bool) :
    Except SqlError (List Nat) :=
  match v with
  | .Number n =>
    .ok [n / 2 ^ 56 % 256, n / 2 ^ 48 % 256, n / 2 ^ 40 % 256, n / 2 ^ 32 % 256,
      n / 2 ^ 24 % 256, n / 2 ^ 16 % 256, n / 2 ^ 8 % 256, n % 256]
  | _ => .error (.other "unsupported key type")

/-- Modelled from the spec: Data Source Resolution
`resolve(engine, snapshot, params, seekSpec) -> RowReader`, "producing a reader scoped
to rows at/after the seek key, ordered by the seek column". The rows of the referenced
table are taken in key order and those at or after `initKeyVal` are kept; each is
keyed by (database, alias, column). -/
def specResolve (ds : DataSource) (e : Engine) (snap : Option Snapshot) (_params : Params)
    (ordCol : OrdCol) : Except SqlError RowReader :=
  match ds, snap with
  | .tableRef tableRef, some s =>
    match specReferencedTable e tableRef with
    | .error err => .error err
    | .ok table =>
      .ok
        { implicitDB := table.db.name,
          implicitTable := specAlias tableRef,
          columns :=
            .ok (table.colsByID.map fun c =>
              (specEncodeSelector "" table.db.name (specAlias tableRef) c.2.colName,
                c.2.colType)),
          pending :=
            ((sortByKey
                (s.rows.filter fun r =>
                  decide (r.db = table.db.name) && decide (r.table = table.name))).filter
              fun r => !ordCol.useInitKeyVal || keyLE ordCol.initKeyVal r.key).map
              fun r =>
                .ok
                  { Values :=
                      r.cols.map fun cv =>
                        (specEncodeSelector "" table.db.name (specAlias tableRef) cv.1, cv.2) },
          closeErr := none }
  | _, _ => .error .ErrIllegalArguments

/-- Modelled from the spec: the collaborators of the joint row reader as sections 2, 3
and 6 of the spec describe them. -/
def specExternals : Externals :=
  { referencedTable := specReferencedTable,
    Alias := specAlias,
    EncodeSelector := specEncodeSelector,
    jointColumnTo := specJointColumnTo,
    resolve := specSelResolve,
    EncodeValue := specEncodeValue,
    asKey := true,
    Resolve := specResolve }

/-! ## A two-table database used for concrete runs -/

/-- Table `t1(id, fk)` of database `db1`, primary key `id`. -/
def tableT1 : Table :=
  { db := { name := "db1" }, name := "t1", pk := { colName := "id", colType := "INTEGER" },
    colsByID := [(1, { colName := "id", colType := "INTEGER" }),
      (2, { colName := "fk", colType := "INTEGER" })] }

/-- Table `t2(id, name)` of database `db1`, primary key `id`. -/
def tableT2 : Table :=
  { db := { name := "db1" }, name := "t2", pk := { colName := "id", colType := "INTEGER" },
    colsByID := [(1, { colName := "id", colType := "INTEGER" }),
      (2, { colName := "name", colType := "VARCHAR" })] }

/-- An engine whose catalog holds `t1` and `t2`. -/
def engine1 : Engine :=
  { implicitDB := "db1", catalog := [tableT1, tableT2] }

/-- The stored row of `t2` with primary key `n`. -/
def t2Row (n : Nat) (name : String) : StoredRow :=
  { db := "db1", table := "t2", key := [0, 0, 0, 0, 0, 0, 0, n],
    cols := [("id", .Number n), ("name", .Varchar name)] }

/-- A snapshot in which `t2` holds the primary keys 1 and 3. -/
def snapshot13 : Snapshot :=
  { rows := [t2Row 1 "one", t2Row 3 "three"] }

/-- The row of `t1` with primary key `n` and foreign key `fk`, as the base reader
yields it. -/
def t1Row (n fk : Nat) : Row :=
  { Values := [("(db1.t1.id)", .Number n), ("(db1.t1.fk)", .Number fk)] }

/-- A base reader over `t1` that yields the given rows and is then exhausted. -/
def baseOver (rows : List Row) : RowReader :=
  { implicitDB := "db1", implicitTable := "t1",
    columns := .ok [("(db1.t1.id)", "INTEGER"), ("(db1.t1.fk)", "INTEGER")],
    pending := rows.map Except.ok, closeErr := none }

/-- The reference to `t2`, without alias. -/
def refT2 : TableRef := { db := "", table := "t2", as := "" }

/-- The reference to a table that the catalog does not hold. -/
def refMissing : TableRef := { db := "", table := "nope", as := "" }

/-- The join `INNER JOIN t2 ON t1.fk = t2.id`. -/
def joinT2 : JoinSpec :=
  { joinType := .InnerJoin, ds := .tableRef refT2,
    cond := .colEq { db := "", table := "t1", col := "fk" } { db := "", table := "t2", col := "id" } }

/-- The joint reader over the given base rows with the single join `joinT2`. -/
def readerOver (rows : List Row) : jointRowReader :=
  { e := engine1, snap := some snapshot13, rowReader := baseOver rows, joins := [joinT2],
    params := [] }

/-! ## Predicates used in the statements -/

/-- The data source of the join is a `*TableRef`. -/
def JoinSpec.isTableRef (j : JoinSpec) : Bool :=
  match j.ds with
  | .tableRef _ => true
  | .derived _ => false

/-- The data source of the join is a `*TableRef` that `referencedTable` resolves. -/
def JoinSpec.resolves (x : Externals) (e : Engine) (j : JoinSpec) : Bool :=
  match j.ds with
  | .tableRef t =>
    match x.referencedTable e t with
    | .ok _ => true
    | .error _ => false
  | .derived _ => false

/-- One `referencedTable` call per join over a `*TableRef`, in declaration order. -/
def resolutionEvents (joins : List JoinSpec) : List Event :=
  joins.filterMap fun j =>
    match j.ds with
    | .tableRef t => some (Event.referencedTable t)
    | .derived _ => none

/-- The join `LEFT JOIN t2 ON t1.fk = t2.id`. -/
def leftJoinT2 : JoinSpec := { joinT2 with joinType := .LeftJoin }

/-- An inner join over a derived source. -/
def joinDerived : JoinSpec := { joinT2 with ds := .derived 0 }

/-- An inner join over a table the catalog does not hold. -/
def joinMissing : JoinSpec := { joinT2 with ds := .tableRef refMissing }

/-- The descriptors `Columns()` writes for one join: one (selector, type) pair per
column of the joined table, in the order the columns are visited. -/
def joinDescriptors (x : Externals) (e : Engine) (j : JoinSpec) : List (String × SQLValueType) :=
  match j.ds with
  | .tableRef t =>
    match x.referencedTable e t with
    | .ok table =>
      table.colsByID.map fun c =>
        (x.EncodeSelector "" table.db.name (x.Alias t) c.2.colName, c.2.colType)
    | .error _ => []
  | .derived _ => []

/-- The descriptors `Columns()` writes for a join list, in the order it writes them. -/
def joinedDescriptors (x : Externals) (e : Engine) : List JoinSpec → List (String × SQLValueType)
  | [] => []
  | j :: rest => joinDescriptors x e j ++ joinedDescriptors x e rest

/-- The reference to `t2` under the alias `b`. -/
def refT2asB : TableRef := { db := "", table := "t2", as := "b" }

/-- The join `INNER JOIN t2 AS b ON t1.fk = b.id`. -/
def joinT2asB : JoinSpec :=
  { joinType := .InnerJoin, ds := .tableRef refT2asB,
    cond := .colEq { db := "", table := "t1", col := "fk" } { db := "", table := "b", col := "id" } }

/-- An engine whose implicit database is one the catalog holds no table of. -/
def engine2 : Engine :=
  { implicitDB := "db2", catalog := [tableT1, tableT2] }

/-- A base reader whose first `Read()` fails and whose second would yield a row. -/
def failingBase : RowReader :=
  { baseOver [] with pending := [.error (.other "read failed"), .ok (t1Row 10 1)] }

/-! ## One iteration of the join loop, and what a call observes -/

/-- How one iteration of the join loop of `Read()` ends, up to the merge. -/
inductive LookupResult where
  | found (jrow : Row)
  | unsolvedFK
  | fail (e : SqlError)
  | panic
  deriving DecidableEq

/-- The encoded selector the foreign-key value is read at (line 112):
`EncodeSelector(fkSel.resolve(rowReader.ImplicitDB(), rowReader.ImplicitTable()))`. -/
def fkSelector (x : Externals) (jointr : jointRowReader) (fkSel : ColSelector) : String :=
  x.EncodeSelector
    (x.resolve fkSel jointr.rowReader.implicitDB jointr.rowReader.implicitTable).1
    (x.resolve fkSel jointr.rowReader.implicitDB jointr.rowReader.implicitTable).2.1
    (x.resolve fkSel jointr.rowReader.implicitDB jointr.rowReader.implicitTable).2.2.1
    (x.resolve fkSel jointr.rowReader.implicitDB jointr.rowReader.implicitTable).2.2.2

/-- The seek specification built at lines 122-130. -/
def pkOrdOf (table : Table) (fkEncVal : List Nat) : OrdCol :=
  { sel := { db := table.db.name, table := table.name, col := table.pk.colName },
    initKeyVal := fkEncVal,
    useInitKeyVal := true }

/-- One iteration of the join loop of `Read()` (lines 101-144) against the accumulated
row `row`: the sub-row read for the join, or how the iteration ends without one. The
lemma `joinLoop_cons` shows that `joinLoop` is this step followed by the merge. -/
def joinLookup (x : Externals) (jointr : jointRowReader) (row : Row) (jspec : JoinSpec) :
    LookupResult × List Event :=
  match jspec.ds with
  | .derived _ => (.panic, [])
  | .tableRef tableRef =>
    match x.referencedTable jointr.e tableRef with
    | .error err => (.fail err, [Event.referencedTable tableRef])
    | .ok table =>
      match x.jointColumnTo jspec.cond table.pk (x.Alias tableRef) with
      | .error err =>
        (.fail err,
          [Event.referencedTable tableRef,
            Event.jointColumnTo jspec.cond table.pk (x.Alias tableRef)])
      | .ok fkSel =>
        match GoMap.get row.Values (fkSelector x jointr fkSel) with
        | none =>
          (.fail .ErrInvalidJointColumn,
            [Event.referencedTable tableRef,
              Event.jointColumnTo jspec.cond table.pk (x.Alias tableRef)])
        | some fkVal =>
          match x.EncodeValue fkVal table.pk.colType x.asKey with
          | .error err =>
            (.fail err,
              [Event.referencedTable tableRef,
                Event.jointColumnTo jspec.cond table.pk (x.Alias tableRef),
                Event.encodeValue fkVal table.pk.colType])
          | .ok fkEncVal =>
            match x.Resolve jspec.ds jointr.e jointr.snap jointr.params
                (pkOrdOf table fkEncVal) with
            | .error err =>
              (.fail err,
                [Event.referencedTable tableRef,
                  Event.jointColumnTo jspec.cond table.pk (x.Alias tableRef),
                  Event.encodeValue fkVal table.pk.colType,
                  Event.resolve jspec.ds (pkOrdOf table fkEncVal) false])
            | .ok jr =>
              (match (RowReader.Read jr).1 with
                | .error err =>
                  if err = SqlError.ErrNoMoreEntries then LookupResult.unsolvedFK
                  else LookupResult.fail err
                | .ok jrow => LookupResult.found jrow,
                [Event.referencedTable tableRef,
                  Event.jointColumnTo jspec.cond table.pk (x.Alias tableRef),
                  Event.encodeValue fkVal table.pk.colType,
                  Event.resolve jspec.ds (pkOrdOf table fkEncVal) true,
                  Event.subRead jspec.ds])

/-- The sub-rows the join loop reads for a base row, join after join, each against the
row accumulated so far; the list stops at the first join that yields no sub-row. -/
def subRows (x : Externals) (jointr : jointRowReader) : Row → List JoinSpec → List Row
  | _, [] => []
  | row, jspec :: rest =>
    match (joinLookup x jointr row jspec).1 with
    | .found jrow => jrow :: subRows x jointr (mergeValues row jrow) rest
    | _ => []

/-- The calls made for base rows that are pulled and then skipped: per row, the base
pull and the calls of its join loop. -/
def skipTrace (x : Externals) (jointr : jointRowReader) : List Row → List Event
  | [] => []
  | r :: rest => (Event.baseRead :: (joinLoop x jointr r jointr.joins).2) ++ skipTrace x jointr rest

/-- The rows among the outcomes a base reader still has to return. -/
def baseRows : List (Except SqlError Row) → List Row
  | [] => []
  | .ok r :: rest => r :: baseRows rest
  | .error _ :: rest => baseRows rest

/-- The selectors of a row are pairwise distinct, as the keys of a Go map are. -/
def Row.WellFormed (r : Row) : Prop := (r.Values.map Prod.fst).Nodup

/-- Number of pulls from the base reader in a trace. -/
def basePulls (tr : List Event) : Nat :=
  tr.countP fun ev => match ev with
    | .baseRead => true
    | _ => false

/-- Number of join iterations started in a trace that reach `referencedTable` (every
iteration over a `*TableRef` starts with that call). -/
def joinsStarted (tr : List Event) : Nat :=
  tr.countP fun ev => match ev with
    | .referencedTable _ => true
    | _ => false

/-- Number of sub-readers opened in a trace: the `Resolve` calls that returned a
reader. -/
def subReadersOpened (tr : List Event) : Nat :=
  tr.countP fun ev => match ev with
    | .resolve _ _ true => true
    | _ => false

/-- Number of `Close()` calls on sub-readers in a trace. -/
def subReadersClosed (tr : List Event) : Nat :=
  tr.countP fun ev => match ev with
    | .subClose _ => true
    | _ => false

/-- The failures of one join iteration that the loop returns as they are: of the table
resolution, of `EncodeValue` on the foreign-key value, of the data source's `Resolve`,
and of the sub-reader's `Read` with an error other than `store.ErrNoMoreEntries`. -/
inductive JoinFailure (x : Externals) (jointr : jointRowReader) (acc : Row) (j : JoinSpec)
    (e : SqlError) : Prop where
  | tableResolution (t : TableRef) (hds : j.ds = .tableRef t)
      (h : x.referencedTable jointr.e t = .error e)
  | encodeValue (t : TableRef) (table : Table) (fkSel : ColSelector) (fkVal : TypedValue)
      (hds : j.ds = .tableRef t)
      (hrt : x.referencedTable jointr.e t = .ok table)
      (hjc : x.jointColumnTo j.cond table.pk (x.Alias t) = .ok fkSel)
      (hget : GoMap.get acc.Values (fkSelector x jointr fkSel) = some fkVal)
      (h : x.EncodeValue fkVal table.pk.colType x.asKey = .error e)
  | resolve (t : TableRef) (table : Table) (fkSel : ColSelector) (fkVal : TypedValue)
      (fkEncVal : List Nat)
      (hds : j.ds = .tableRef t)
      (hrt : x.referencedTable jointr.e t = .ok table)
      (hjc : x.jointColumnTo j.cond table.pk (x.Alias t) = .ok fkSel)
      (hget : GoMap.get acc.Values (fkSelector x jointr fkSel) = some fkVal)
      (henc : x.EncodeValue fkVal table.pk.colType x.asKey = .ok fkEncVal)
      (h : x.Resolve j.ds jointr.e jointr.snap jointr.params (pkOrdOf table fkEncVal) =
        .error e)
  | subRead (t : TableRef) (table : Table) (fkSel : ColSelector) (fkVal : TypedValue)
      (fkEncVal : List Nat) (jr : RowReader)
      (hds : j.ds = .tableRef t)
      (hrt : x.referencedTable jointr.e t = .ok table)
      (hjc : x.jointColumnTo j.cond table.pk (x.Alias t) = .ok fkSel)
      (hget : GoMap.get acc.Values (fkSelector x jointr fkSel) = some fkVal)
      (henc : x.EncodeValue fkVal table.pk.colType x.asKey = .ok fkEncVal)
      (hres : x.Resolve j.ds jointr.e jointr.snap jointr.params (pkOrdOf table fkEncVal) =
        .ok jr)
      (h : (RowReader.Read jr).1 = .error e)
      (hne : e ≠ SqlError.ErrNoMoreEntries)

/-- The reader with its base reader left with the outcomes `p` still to return. -/
def withPending (jointr : jointRowReader) (p : List (Except SqlError Row)) : jointRowReader :=
  { jointr with rowReader := { jointr.rowReader with pending := p } }

/-! ## Further concrete runs -/

/-- A row of `t1` with two foreign keys into `t2`: `fk = 1` and `fk2 = 3`. -/
def rowTwoKeys : Row :=
  { Values := [("(db1.t1.id)", .Number 10), ("(db1.t1.fk)", .Number 1),
      ("(db1.t1.fk2)", .Number 3)] }

/-- The join `INNER JOIN t2 ON t1.fk2 = t2.id`. -/
def joinT2onFk2 : JoinSpec :=
  { joinType := .InnerJoin, ds := .tableRef refT2,
    cond := .colEq { db := "", table := "t1", col := "fk2" }
      { db := "", table := "t2", col := "id" } }

/-- A reader with two joins over `t2` under the same name, so that both produce the
same selectors. -/
def collisionReader : jointRowReader :=
  { readerOver [rowTwoKeys] with joins := [joinT2, joinT2onFk2] }

/-- Table `a(id, bid)` of database `db1`. -/
def tableA : Table :=
  { db := { name := "db1" }, name := "a", pk := { colName := "id", colType := "INTEGER" },
    colsByID := [(1, { colName := "id", colType := "INTEGER" }),
      (2, { colName := "bid", colType := "INTEGER" })] }

/-- Table `b(id, cid)` of database `db1`. -/
def tableB : Table :=
  { db := { name := "db1" }, name := "b", pk := { colName := "id", colType := "INTEGER" },
    colsByID := [(1, { colName := "id", colType := "INTEGER" }),
      (2, { colName := "cid", colType := "INTEGER" })] }

/-- Table `c(id, label)` of database `db1`. -/
def tableC : Table :=
  { db := { name := "db1" }, name := "c", pk := { colName := "id", colType := "INTEGER" },
    colsByID := [(1, { colName := "id", colType := "INTEGER" }),
      (2, { colName := "label", colType := "VARCHAR" })] }

/-- An engine whose catalog holds `a`, `b` and `c`. -/
def chainEngine : Engine :=
  { implicitDB := "db1", catalog := [tableA, tableB, tableC] }

/-- A snapshot in which `b` holds the row (5, cid 7) and `c` the row (7, "seven"). -/
def chainSnapshot : Snapshot :=
  { rows :=
      [{ db := "db1", table := "b", key := [0, 0, 0, 0, 0, 0, 0, 5],
          cols := [("id", .Number 5), ("cid", .Number 7)] },
        { db := "db1", table := "c", key := [0, 0, 0, 0, 0, 0, 0, 7],
          cols := [("id", .Number 7), ("label", .Varchar "seven")] }] }

/-- The row of `a` with `id = 1` and `bid = 5`. -/
def rowA : Row :=
  { Values := [("(db1.a.id)", .Number 1), ("(db1.a.bid)", .Number 5)] }

/-- The join `INNER JOIN b ON a.bid = b.id`. -/
def joinB : JoinSpec :=
  { joinType := .InnerJoin, ds := .tableRef { db := "", table := "b", as := "" },
    cond := .colEq { db := "", table := "a", col := "bid" }
      { db := "", table := "b", col := "id" } }

/-- The join `INNER JOIN c ON b.cid = c.id`, whose condition names a column that only
the join with `b` produces. -/
def joinC : JoinSpec :=
  { joinType := .InnerJoin, ds := .tableRef { db := "", table := "c", as := "" },
    cond := .colEq { db := "", table := "b", col := "cid" }
      { db := "", table := "c", col := "id" } }

/-- The joint reader over the single row of `a` with the given joins. -/
def chainReader (joins : List JoinSpec) : jointRowReader :=
  { e := chainEngine, snap := some chainSnapshot,
    rowReader :=
      { implicitDB := "db1", implicitTable := "a",
        columns := .ok [("(db1.a.id)", "INTEGER"), ("(db1.a.bid)", "INTEGER")],
        pending := [.ok rowA], closeErr := none },
    joins := joins, params := [] }

/-- A join over `t2` whose condition is no equality between columns. -/
def joinNotEq : JoinSpec := { joinT2 with cond := .otherExp 0 }

/-- A row of `t1` whose foreign key is a string, which the key encoding refuses. -/
def rowVarcharKey : Row :=
  { Values := [("(db1.t1.id)", .Number 10), ("(db1.t1.fk)", .Varchar "x")] }

/-- A row of `t1` with `fk = 4`, past every primary key of `t2`, and no column `x`. -/
def rowDangling : Row := t1Row 10 4

/-- A row of `t1` with `fk = 1` and `x = 3`. -/
def rowWithX : Row :=
  { Values := [("(db1.t1.id)", .Number 11), ("(db1.t1.fk)", .Number 1),
      ("(db1.t1.x)", .Number 3)] }

/-- The join `INNER JOIN t2 AS b ON t1.x = b.id`. -/
def joinBonX : JoinSpec :=
  { joinType := .InnerJoin, ds := .tableRef refT2asB,
    cond := .colEq { db := "", table := "t1", col := "x" }
      { db := "", table := "b", col := "id" } }

/-- A reader over `rowDangling` then `rowWithX`, joined with `t2` and with `t2 AS b`. -/
def skipReader : jointRowReader :=
  { readerOver [rowDangling, rowWithX] with joins := [joinT2, joinBonX] }

/-- A reader over `t1` joined with `t2` whose base reader yields `rowDangling`, then
fails, and would then yield another row. -/
def failingAfterSkip : jointRowReader :=
  { readerOver [] with
    rowReader :=
      { baseOver [] with
        pending := [.ok rowDangling, .error (.other "read failed"), .ok (t1Row 10 1)] } }

/-! ## Lemmas on the validation loop -/

theorem validateJoins_append (x : Externals) (e : Engine) (pre rest : List JoinSpec)
    (hpre : ∀ p ∈ pre, p.joinType = JoinType.InnerJoin ∧ p.resolves x e = true) :
    validateJoins x e (pre ++ rest) =
      ((validateJoins x e rest).1, resolutionEvents pre ++ (validateJoins x e rest).2) := by
  induction pre with
  | nil => simp [resolutionEvents]
  | cons p ps ih =>
    have hp := hpre p (List.mem_cons_self _ _)
    have ih2 := ih (fun q hq => hpre q (List.mem_cons_of_mem _ hq))
    obtain ⟨hk, hr⟩ := hp
    cases hds : p.ds with
    | derived n => simp [JoinSpec.resolves, hds] at hr
    | tableRef t =>
      cases hrt : x.referencedTable e t with
      | error err => simp [JoinSpec.resolves, hds, hrt] at hr
      | ok tb =>
        simp [validateJoins, hk, hds, hrt, ih2, resolutionEvents]

theorem validateJoins_none_iff (x : Externals) (e : Engine) (joins : List JoinSpec) :
    (validateJoins x e joins).1 = none ↔
      ∀ j ∈ joins, j.joinType = JoinType.InnerJoin ∧ j.resolves x e = true := by
  induction joins with
  | nil => simp [validateJoins]
  | cons p ps ih =>
    by_cases hk : p.joinType = JoinType.InnerJoin
    · cases hds : p.ds with
      | derived n => simp [validateJoins, hk, hds, JoinSpec.resolves]
      | tableRef t =>
        cases hrt : x.referencedTable e t with
        | error err => simp [validateJoins, hk, hds, hrt, JoinSpec.resolves]
        | ok tb => simp [validateJoins, hk, hds, hrt, JoinSpec.resolves, ih]
    · simp [validateJoins, hk]

theorem newJointRowReader_of_validate (x : Externals) (e : Engine) (s : Snapshot)
    (params : Params) (rowReader : RowReader) (j : JoinSpec) (js : List JoinSpec) :
    newJointRowReader x e (some s) params rowReader (j :: js) =
      match validateJoins x e (j :: js) with
      | (some err, tr) => (.err err, tr)
      | (none, tr) =>
        (.ok { e := e, snap := some s, params := params, rowReader := rowReader,
               joins := j :: js }, tr) := by
  simp [newJointRowReader]

theorem newJointRowReader_first_failure (x : Externals) (e : Engine) (snap : Option Snapshot)
    (params : Params) (rowReader : RowReader) (pre : List JoinSpec) (j : JoinSpec)
    (post : List JoinSpec) (err : SqlError) (tr : List Event)
    (hsnap : snap.isSome = true)
    (hpre : ∀ p ∈ pre, p.joinType = JoinType.InnerJoin ∧ p.resolves x e = true)
    (hj : validateJoins x e (j :: post) = (some err, tr)) :
    newJointRowReader x e snap params rowReader (pre ++ j :: post) =
      (.err err, resolutionEvents pre ++ tr) := by
  obtain ⟨s, rfl⟩ := Option.isSome_iff_exists.mp hsnap
  have hv := validateJoins_append x e pre (j :: post) hpre
  rw [hj] at hv
  cases pre with
  | nil =>
    simp only [List.nil_append] at hv ⊢
    rw [newJointRowReader_of_validate, hv]
  | cons p ps =>
    simp only [List.cons_append] at hv ⊢
    rw [newJointRowReader_of_validate, hv]

theorem exists_first_unresolved (x : Externals) (e : Engine) (joins : List JoinSpec)
    (h : ∃ j ∈ joins, j.resolves x e = false) :
    ∃ pre j post, joins = pre ++ j :: post ∧ (∀ p ∈ pre, p.resolves x e = true) ∧
      j.resolves x e = false := by
  induction joins with
  | nil =>
    obtain ⟨j, hj, _⟩ := h
    cases hj
  | cons a rest ih =>
    cases ha : a.resolves x e with
    | false => exact ⟨[], a, rest, rfl, by simp, ha⟩
    | true =>
      obtain ⟨j, hj, hjr⟩ := h
      rcases List.mem_cons.mp hj with hja | hjr2
      · subst hja
        rw [ha] at hjr
        cases hjr
      · obtain ⟨pre, k, post, hsplit, hpre, hk⟩ := ih ⟨j, hjr2, hjr⟩
        refine ⟨a :: pre, k, post, by simp [hsplit], ?_, hk⟩
        intro p hp
        rcases List.mem_cons.mp hp with hpa | hpp
        · subst hpa
          exact ha
        · exact hpre p hpp

/-! ## Construction: claims C3 to C7 -/

/-- C3, as the code has it: when the first join that fails validation fails on its
kind (every join before it is an InnerJoin over a table reference that resolves),
`newJointRowReader` returns no reader and `ErrUnsupportedJoinType`, and the only
`referencedTable` calls made are those for the joins before it, in order: none for
the join of unsupported kind nor for any later join, and none at all when that join
comes first. -/
theorem newJointRowReader_unsupported_join_type (x : Externals) (e : Engine)
    (snap : Option Snapshot) (params : Params) (rowReader : RowReader)
    (pre : List JoinSpec) (j : JoinSpec) (post : List JoinSpec)
    (hsnap : snap.isSome = true)
    (hpre : ∀ p ∈ pre, p.joinType = JoinType.InnerJoin ∧ p.resolves x e = true)
    (hj : j.joinType ≠ JoinType.InnerJoin) :
    newJointRowReader x e snap params rowReader (pre ++ j :: post) =
      (.err .ErrUnsupportedJoinType, resolutionEvents pre) := by
  have h := newJointRowReader_first_failure x e snap params rowReader pre j post
    .ErrUnsupportedJoinType [] hsnap hpre (by simp [validateJoins, hj])
  simpa using h

/-- Witness for C3 as amended: `t2` is resolved for the inner join, then the left join
is refused. -/
theorem newJointRowReader_unsupported_join_type_witness :
    newJointRowReader specExternals engine1 (some snapshot13) [] (baseOver [])
        ([joinT2] ++ leftJoinT2 :: [joinT2]) =
      (.err .ErrUnsupportedJoinType, resolutionEvents [joinT2]) :=
  newJointRowReader_unsupported_join_type specExternals engine1 (some snapshot13) []
    (baseOver []) [joinT2] leftJoinT2 [joinT2] rfl (by decide) (by decide)

/-- C3 as stated fails: with an inner join over `t2` ahead of a left join, the error is
`ErrUnsupportedJoinType` but `referencedTable` has been called (for `t2`); and with an
inner join over a derived source ahead of the left join, the error is `ErrLimitedJoins`
and not `ErrUnsupportedJoinType`. -/
theorem newJointRowReader_unsupported_join_type_counterexample :
    (leftJoinT2 ∈ [joinT2, leftJoinT2] ∧ leftJoinT2.joinType ≠ JoinType.InnerJoin ∧
      Event.referencedTable refT2 ∈
        (newJointRowReader specExternals engine1 (some snapshot13) [] (baseOver [])
          [joinT2, leftJoinT2]).2) ∧
    (leftJoinT2 ∈ [joinDerived, leftJoinT2] ∧
      (newJointRowReader specExternals engine1 (some snapshot13) [] (baseOver [])
          [joinDerived, leftJoinT2]) = (.err .ErrLimitedJoins, [])) := by
  refine ⟨⟨by decide, by decide, ?_⟩, by decide, rfl⟩
  have h : (newJointRowReader specExternals engine1 (some snapshot13) [] (baseOver [])
      [joinT2, leftJoinT2]).2 = [Event.referencedTable refT2] := rfl
  rw [h]
  exact List.mem_singleton.mpr rfl

/-- C4: a nil snapshot or an empty join list gives no reader and `ErrIllegalArguments`,
whatever the joins contain, before any other check and with no table resolution. -/
theorem newJointRowReader_illegal_arguments (x : Externals) (e : Engine)
    (snap : Option Snapshot) (params : Params) (rowReader : RowReader)
    (joins : List JoinSpec) (h : snap = none ∨ joins = []) :
    newJointRowReader x e snap params rowReader joins = (.err .ErrIllegalArguments, []) := by
  rcases h with h | h <;> simp [newJointRowReader, h]

/-- Witness for C4: a nil snapshot with a join list that would fail every later check. -/
theorem newJointRowReader_illegal_arguments_witness :
    newJointRowReader specExternals engine1 none [] (baseOver [])
        [leftJoinT2, joinDerived, joinMissing] = (.err .ErrIllegalArguments, []) :=
  newJointRowReader_illegal_arguments specExternals engine1 none [] (baseOver [])
    [leftJoinT2, joinDerived, joinMissing] (Or.inl rfl)

/-- C5, as the code has it: when every join before the first join whose source is no
`*TableRef` is an InnerJoin over a table reference that resolves, and that join is an
InnerJoin, `newJointRowReader` returns no reader and `ErrLimitedJoins`. -/
theorem newJointRowReader_limited_joins (x : Externals) (e : Engine)
    (snap : Option Snapshot) (params : Params) (rowReader : RowReader)
    (pre : List JoinSpec) (j : JoinSpec) (post : List JoinSpec)
    (hsnap : snap.isSome = true)
    (hpre : ∀ p ∈ pre, p.joinType = JoinType.InnerJoin ∧ p.resolves x e = true)
    (hk : j.joinType = JoinType.InnerJoin) (hds : j.isTableRef = false) :
    newJointRowReader x e snap params rowReader (pre ++ j :: post) =
      (.err .ErrLimitedJoins, resolutionEvents pre) := by
  have hv : validateJoins x e (j :: post) = (some .ErrLimitedJoins, []) := by
    cases hd : j.ds with
    | tableRef t => simp [JoinSpec.isTableRef, hd] at hds
    | derived n => simp [validateJoins, hk, hd]
  have h := newJointRowReader_first_failure x e snap params rowReader pre j post
    .ErrLimitedJoins [] hsnap hpre hv
  simpa using h

/-- Witness for C5 as amended. -/
theorem newJointRowReader_limited_joins_witness :
    newJointRowReader specExternals engine1 (some snapshot13) [] (baseOver [])
        ([joinT2] ++ joinDerived :: [joinMissing]) =
      (.err .ErrLimitedJoins, resolutionEvents [joinT2]) :=
  newJointRowReader_limited_joins specExternals engine1 (some snapshot13) []
    (baseOver []) [joinT2] joinDerived [joinMissing] rfl (by decide) rfl rfl

/-- C5 as stated fails: the snapshot is non-nil, both joins are inner joins and the
second has a derived source, yet the error returned is the resolution error of the
first join's table reference, not `ErrLimitedJoins`. -/
theorem newJointRowReader_limited_joins_counterexample :
    (∀ j ∈ [joinMissing, joinDerived], j.joinType = JoinType.InnerJoin) ∧
    (∃ j ∈ [joinMissing, joinDerived], j.isTableRef = false) ∧
    newJointRowReader specExternals engine1 (some snapshot13) [] (baseOver [])
        [joinMissing, joinDerived] =
      (.err (.other "table does not exist"), [Event.referencedTable refMissing]) ∧
    SqlError.other "table does not exist" ≠ SqlError.ErrLimitedJoins := by
  refine ⟨by decide, by decide, rfl, by decide⟩

/-- C6: `newJointRowReader` returns a reader and a nil error exactly when the snapshot
is non-nil, the join list is non-empty and every join is an InnerJoin whose source is a
`*TableRef` that resolves through the engine; and the reader returned holds the given
engine, snapshot, parameters, base reader and join list (same joins, same order). -/
theorem newJointRowReader_ok_iff (x : Externals) (e : Engine)
    (snap : Option Snapshot) (params : Params) (rowReader : RowReader)
    (joins : List JoinSpec) :
    ((∃ r, (newJointRowReader x e snap params rowReader joins).1 = .ok r) ↔
      (snap.isSome = true ∧ joins ≠ [] ∧
        ∀ j ∈ joins, j.joinType = JoinType.InnerJoin ∧ j.isTableRef = true ∧
          j.resolves x e = true)) ∧
    (∀ r, (newJointRowReader x e snap params rowReader joins).1 = .ok r →
      r = { e := e, snap := snap, rowReader := rowReader, joins := joins,
            params := params }) := by
  have hres : ∀ j : JoinSpec, j.resolves x e = true → j.isTableRef = true := by
    intro j hj
    cases hd : j.ds with
    | tableRef t => simp [JoinSpec.isTableRef, hd]
    | derived n => simp [JoinSpec.resolves, hd] at hj
  cases snap with
  | none => simp [newJointRowReader]
  | some s =>
    cases joins with
    | nil => simp [newJointRowReader]
    | cons j js =>
      rw [newJointRowReader_of_validate]
      have hiff := validateJoins_none_iff x e (j :: js)
      cases hv : validateJoins x e (j :: js) with
      | mk r tr =>
        rw [hv] at hiff
        cases r with
        | some err =>
          simp only [reduceCtorEq, false_iff] at hiff
          constructor
          · constructor
            · rintro ⟨r, hr⟩
              cases hr
            · rintro ⟨_, _, hall⟩
              exact absurd (fun j hj => ⟨(hall j hj).1, (hall j hj).2.2⟩) hiff
          · intro r hr
            cases hr
        | none =>
          simp only [true_iff] at hiff
          constructor
          · constructor
            · intro _
              exact ⟨rfl, by simp, fun q hq => ⟨(hiff q hq).1, hres q (hiff q hq).2,
                (hiff q hq).2⟩⟩
            · intro _
              exact ⟨_, rfl⟩
          · intro r hr
            cases hr
            rfl

/-- Witness for C6: a non-nil snapshot and one inner join over `t2` give a reader. -/
theorem newJointRowReader_ok_iff_witness :
    ∃ r, (newJointRowReader specExternals engine1 (some snapshot13) [] (baseOver [])
      [joinT2]).1 = .ok r :=
  (newJointRowReader_ok_iff specExternals engine1 (some snapshot13) [] (baseOver [])
    [joinT2]).1.mpr ⟨rfl, by decide, by decide⟩

/-- C7: with a non-nil snapshot and a join list in which every join is an InnerJoin
over a `*TableRef`, if some table reference fails to resolve then the list splits at
the first failing reference in declaration order (every reference before it resolves)
and `newJointRowReader` returns no reader and exactly the error `referencedTable`
returned for that reference; the failing resolution is the last call made. -/
theorem newJointRowReader_resolution_error (x : Externals) (e : Engine)
    (snap : Option Snapshot) (params : Params) (rowReader : RowReader)
    (joins : List JoinSpec)
    (hsnap : snap.isSome = true)
    (hall : ∀ j ∈ joins, j.joinType = JoinType.InnerJoin ∧ j.isTableRef = true)
    (hfail : ∃ j ∈ joins, j.resolves x e = false) :
    ∃ pre j post t err,
      joins = pre ++ j :: post ∧
      (∀ p ∈ pre, p.resolves x e = true) ∧
      j.ds = .tableRef t ∧
      x.referencedTable e t = .error err ∧
      newJointRowReader x e snap params rowReader joins =
        (.err err, resolutionEvents pre ++ [Event.referencedTable t]) := by
  obtain ⟨pre, j, post, hsplit, hpre, hj⟩ := exists_first_unresolved x e joins hfail
  have hjall := hall j (by rw [hsplit]; simp)
  cases hds : j.ds with
  | derived n => simp [JoinSpec.isTableRef, hds] at hjall
  | tableRef t =>
    cases hrt : x.referencedTable e t with
    | ok tb => simp [JoinSpec.resolves, hds, hrt] at hj
    | error err =>
      refine ⟨pre, j, post, t, err, hsplit, hpre, hds, hrt, ?_⟩
      rw [hsplit]
      refine newJointRowReader_first_failure x e snap params rowReader pre j post err _
        hsnap (fun p hp => ⟨(hall p (by rw [hsplit]; simp [hp])).1, hpre p hp⟩) ?_
      simp [validateJoins, hjall.1, hds, hrt]

/-- Witness for C7: `t2` resolves, the second reference does not, and its error comes
back as it is. -/
theorem newJointRowReader_resolution_error_witness :
    ∃ pre j post t err,
      [joinT2, joinMissing, joinT2] = pre ++ j :: post ∧
      (∀ p ∈ pre, p.resolves specExternals engine1 = true) ∧
      j.ds = .tableRef t ∧
      specExternals.referencedTable engine1 t = .error err ∧
      newJointRowReader specExternals engine1 (some snapshot13) [] (baseOver [])
          [joinT2, joinMissing, joinT2] =
        (.err err, resolutionEvents pre ++ [Event.referencedTable t]) :=
  newJointRowReader_resolution_error specExternals engine1 (some snapshot13) []
    (baseOver []) [joinT2, joinMissing, joinT2] rfl (by decide) (by decide)

/-! ## Lemmas on maps -/

theorem GoMap.get_set {V : Type} (m : GoMap V) (k : String) (v : V) (k' : String) :
    GoMap.get (GoMap.set m k v) k' = if k = k' then some v else GoMap.get m k' := by
  induction m with
  | nil => simp [GoMap.set, GoMap.get]
  | cons p rest ih =>
    obtain ⟨pk, pv⟩ := p
    by_cases h : pk = k
    · subst h
      by_cases h2 : pk = k' <;> simp [GoMap.set, GoMap.get, h2]
    · by_cases h2 : pk = k'
      · subst h2
        have h3 : ¬ k = pk := fun hh => h hh.symm
        simp [GoMap.set, GoMap.get, h, h3]
      · simp [GoMap.set, GoMap.get, h, h2, ih]

theorem GoMap.get_foldl_set_of_not_mem {V : Type} (l : List (String × V)) (m : GoMap V)
    (s : String) (h : ∀ p ∈ l, p.1 ≠ s) :
    GoMap.get (l.foldl (fun m p => GoMap.set m p.1 p.2) m) s = GoMap.get m s := by
  induction l generalizing m with
  | nil => rfl
  | cons p rest ih =>
    rw [List.foldl_cons, ih _ (fun q hq => h q (List.mem_cons_of_mem _ hq)), GoMap.get_set]
    simp [h p (List.mem_cons_self _ _)]

theorem GoMap.get_foldl_set_last {V : Type} (pre : List (String × V)) (p : String × V)
    (post : List (String × V)) (m : GoMap V) (h : ∀ q ∈ post, q.1 ≠ p.1) :
    GoMap.get ((pre ++ p :: post).foldl (fun m p => GoMap.set m p.1 p.2) m) p.1 = some p.2 := by
  rw [List.foldl_append, List.foldl_cons, GoMap.get_foldl_set_of_not_mem _ _ _ h,
    GoMap.get_set]
  simp

theorem GoMap.get_foldl_set_isSome {V : Type} (l : List (String × V)) (m : GoMap V)
    (s : String) :
    (GoMap.get (l.foldl (fun m p => GoMap.set m p.1 p.2) m) s).isSome = true ↔
      ((GoMap.get m s).isSome = true ∨ ∃ p ∈ l, p.1 = s) := by
  induction l generalizing m with
  | nil => simp
  | cons p rest ih =>
    rw [List.foldl_cons, ih, GoMap.get_set]
    by_cases hp : p.1 = s
    · simp [hp]
    · simp [hp]

/-! ## Lemmas on Columns -/

theorem addTableColumns_eq (x : Externals) (table : Table) (t : TableRef)
    (cd : ColDescriptors) :
    addTableColumns x table t cd =
      (table.colsByID.map fun c =>
        (x.EncodeSelector "" table.db.name (x.Alias t) c.2.colName, c.2.colType)).foldl
        (fun m p => GoMap.set m p.1 p.2) cd := by
  simp [addTableColumns, List.foldl_map]

theorem columnsLoop_of_resolves (x : Externals) (e : Engine) (joins : List JoinSpec)
    (cd : ColDescriptors) (hres : ∀ j ∈ joins, j.resolves x e = true) :
    columnsLoop x e joins cd =
      (.ok ((joinedDescriptors x e joins).foldl (fun m p => GoMap.set m p.1 p.2) cd),
        resolutionEvents joins) := by
  induction joins generalizing cd with
  | nil => simp [columnsLoop, joinedDescriptors, resolutionEvents]
  | cons j rest ih =>
    have hj := hres j (List.mem_cons_self _ _)
    have ih2 := fun cd => ih cd (fun q hq => hres q (List.mem_cons_of_mem _ hq))
    cases hds : j.ds with
    | derived n => simp [JoinSpec.resolves, hds] at hj
    | tableRef t =>
      cases hrt : x.referencedTable e t with
      | error err => simp [JoinSpec.resolves, hds, hrt] at hj
      | ok table =>
        simp [columnsLoop, hds, hrt, ih2, joinedDescriptors, joinDescriptors,
          resolutionEvents, addTableColumns_eq, List.foldl_append]

theorem resolutionEvents_mem (joins : List JoinSpec) (ev : Event)
    (h : ev ∈ resolutionEvents joins) : ∃ t, ev = Event.referencedTable t := by
  unfold resolutionEvents at h
  obtain ⟨j, _, hj⟩ := List.mem_filterMap.mp h
  cases hd : j.ds with
  | tableRef t =>
    rw [hd] at hj
    exact ⟨t, (Option.some.inj hj).symm⟩
  | derived n =>
    rw [hd] at hj
    cases hj

theorem columnsLoop_append (x : Externals) (e : Engine) (pre rest : List JoinSpec)
    (cd : ColDescriptors) (hres : ∀ j ∈ pre, j.resolves x e = true) :
    columnsLoop x e (pre ++ rest) cd =
      ((columnsLoop x e rest
          ((joinedDescriptors x e pre).foldl (fun m p => GoMap.set m p.1 p.2) cd)).1,
        resolutionEvents pre ++
          (columnsLoop x e rest
            ((joinedDescriptors x e pre).foldl (fun m p => GoMap.set m p.1 p.2) cd)).2) := by
  induction pre generalizing cd with
  | nil => simp [joinedDescriptors, resolutionEvents]
  | cons j js ih =>
    have hj := hres j (List.mem_cons_self _ _)
    have ih2 := fun cd => ih cd (fun q hq => hres q (List.mem_cons_of_mem _ hq))
    cases hds : j.ds with
    | derived n => simp [JoinSpec.resolves, hds] at hj
    | tableRef t =>
      cases hrt : x.referencedTable e t with
      | error err => simp [JoinSpec.resolves, hds, hrt] at hj
      | ok table =>
        simp [columnsLoop, hds, hrt, ih2, joinedDescriptors, joinDescriptors,
          resolutionEvents, addTableColumns_eq, List.foldl_append]

/-- The base reader's `Columns()` error comes back from `Columns()` as it is, and no
table is resolved. -/
theorem Columns_base_error (x : Externals) (jointr : jointRowReader) (err : SqlError)
    (h : jointr.rowReader.columns = .error err) :
    jointRowReader.Columns x jointr = (.err err, [Event.baseColumns]) := by
  simp [jointRowReader.Columns, h]

/-- Whenever the base descriptors are available and some join's table reference fails
to resolve (those before it resolving), `Columns()` does not return: the error is
dropped and the nil table is dereferenced. -/
theorem Columns_resolution_error_panics (x : Externals) (jointr : jointRowReader)
    (base : ColDescriptors) (pre : List JoinSpec) (j : JoinSpec) (post : List JoinSpec)
    (t : TableRef) (err : SqlError)
    (hbase : jointr.rowReader.columns = .ok base)
    (hjoins : jointr.joins = pre ++ j :: post)
    (hpre : ∀ p ∈ pre, p.resolves x jointr.e = true)
    (hds : j.ds = .tableRef t) (herr : x.referencedTable jointr.e t = .error err) :
    jointRowReader.Columns x jointr =
      (.panic, Event.baseColumns :: (resolutionEvents pre ++ [Event.referencedTable t])) := by
  simp [jointRowReader.Columns, hbase, hjoins, columnsLoop_append x jointr.e pre (j :: post) _ hpre,
    columnsLoop, hds, herr]

/-! ## Columns: claims C8 and C9 -/

/-- C8: when the base reader's `Columns()` succeeds with `base` and every join's table
reference resolves, `Columns()` returns a map `cols` having called only the base
reader's `Columns()` and `referencedTable` once per join (no row is pulled); a
selector is in `cols` exactly when it is in `base` or is the selector
`EncodeSelector("", table.db.name, tableRef.Alias(), c.colName)` of a column of a joined
table; a selector of no joined column keeps its base type; and a joined column's
selector carries that column's type, the last written winning over the base and over
earlier joins. -/
theorem Columns_descriptors (x : Externals) (jointr : jointRowReader) (base : ColDescriptors)
    (hbase : jointr.rowReader.columns = .ok base)
    (hres : ∀ j ∈ jointr.joins, j.resolves x jointr.e = true) :
    ∃ cols,
      jointRowReader.Columns x jointr =
        (.ok cols, Event.baseColumns :: resolutionEvents jointr.joins) ∧
      Event.baseRead ∉ (jointRowReader.Columns x jointr).2 ∧
      (∀ s, (GoMap.get cols s).isSome = true ↔
        ((GoMap.get base s).isSome = true ∨
          ∃ p ∈ joinedDescriptors x jointr.e jointr.joins, p.1 = s)) ∧
      (∀ s, (∀ p ∈ joinedDescriptors x jointr.e jointr.joins, p.1 ≠ s) →
        GoMap.get cols s = GoMap.get base s) ∧
      (∀ pre p post, joinedDescriptors x jointr.e jointr.joins = pre ++ p :: post →
        (∀ q ∈ post, q.1 ≠ p.1) → GoMap.get cols p.1 = some p.2) := by
  have hcols : jointRowReader.Columns x jointr =
      (.ok ((joinedDescriptors x jointr.e jointr.joins).foldl
          (fun m p => GoMap.set m p.1 p.2) base),
        Event.baseColumns :: resolutionEvents jointr.joins) := by
    simp [jointRowReader.Columns, hbase, columnsLoop_of_resolves x jointr.e jointr.joins _ hres]
  refine ⟨_, hcols, ?_, ?_, ?_, ?_⟩
  · rw [hcols]
    intro hmem
    rcases List.mem_cons.mp hmem with h | h
    · cases h
    · obtain ⟨t, ht⟩ := resolutionEvents_mem _ _ h
      cases ht
  · intro s
    exact GoMap.get_foldl_set_isSome _ _ _
  · intro s hs
    exact GoMap.get_foldl_set_of_not_mem _ _ _ hs
  · intro pre p post hsplit hpost
    rw [hsplit]
    exact GoMap.get_foldl_set_last pre p post base hpost

/-- Witness for C8: `t1` joined with `t2 AS b`; the joined columns are keyed by the
alias `b`. -/
theorem Columns_descriptors_witness :
    jointRowReader.Columns specExternals { readerOver [] with joins := [joinT2asB] } =
        (.ok [("(db1.t1.id)", "INTEGER"), ("(db1.t1.fk)", "INTEGER"),
            ("(db1.b.id)", "INTEGER"), ("(db1.b.name)", "VARCHAR")],
          [Event.baseColumns, Event.referencedTable refT2asB]) ∧
    ∃ cols,
      jointRowReader.Columns specExternals { readerOver [] with joins := [joinT2asB] } =
        (.ok cols, Event.baseColumns :: resolutionEvents [joinT2asB]) ∧
      Event.baseRead ∉
        (jointRowReader.Columns specExternals { readerOver [] with joins := [joinT2asB] }).2 ∧
      (∀ s, (GoMap.get cols s).isSome = true ↔
        ((GoMap.get [("(db1.t1.id)", "INTEGER"), ("(db1.t1.fk)", "INTEGER")] s).isSome = true ∨
          ∃ p ∈ joinedDescriptors specExternals engine1 [joinT2asB], p.1 = s)) ∧
      (∀ s, (∀ p ∈ joinedDescriptors specExternals engine1 [joinT2asB], p.1 ≠ s) →
        GoMap.get cols s =
          GoMap.get [("(db1.t1.id)", "INTEGER"), ("(db1.t1.fk)", "INTEGER")] s) ∧
      (∀ pre p post, joinedDescriptors specExternals engine1 [joinT2asB] = pre ++ p :: post →
        (∀ q ∈ post, q.1 ≠ p.1) → GoMap.get cols p.1 = some p.2) :=
  ⟨rfl,
    Columns_descriptors specExternals { readerOver [] with joins := [joinT2asB] }
      [("(db1.t1.id)", "INTEGER"), ("(db1.t1.fk)", "INTEGER")] rfl (by decide)⟩

/-- C9, second half, fails on the code: a reader built successfully over engine state
`engine1` is asked for its columns when the engine's implicit database has become one
without `t2`; `referencedTable` returns an error, which `Columns()` discards, and the
call ends in a nil dereference instead of returning that error. -/
theorem Columns_discards_resolution_error :
    (newJointRowReader specExternals engine1 (some snapshot13) [] (baseOver []) [joinT2]).1 =
        .ok (readerOver []) ∧
    specExternals.referencedTable engine2 refT2 = .error (.other "table does not exist") ∧
    jointRowReader.Columns specExternals { readerOver [] with e := engine2 } =
      (.panic, [Event.baseColumns, Event.referencedTable refT2]) :=
  ⟨rfl, rfl, rfl⟩

/-! ## Read against the data source of the spec: claims C1 and C2 -/

/-- C1 fails on the code, with the data source resolved as the spec describes it: the
base row with foreign key 2 is returned carrying the columns of the row of `t2` with
primary key 3 (the first row at or after the seek key), while no row of `t2` has
primary key 2. -/
theorem Read_merges_row_after_seek_key :
    (jointRowReader.Read specExternals (readerOver [t1Row 10 2])).1 =
      .ok { Values := [("(db1.t1.id)", .Number 10), ("(db1.t1.fk)", .Number 2),
              ("(db1.t2.id)", .Number 3), ("(db1.t2.name)", .Varchar "three")] } ∧
    (∀ r ∈ snapshot13.rows, GoMap.get r.cols "id" ≠ some (.Number 2)) :=
  ⟨rfl, by decide⟩

/-- C2 fails on the code, with the data source resolved as the spec describes it: over
base rows with foreign keys 1, 2, 3 and a joined table with primary keys 1 and 3,
successive `Read()` calls return three rows, not two; the row with foreign key 2 is
returned, merged with the row of primary key 3. -/
theorem readAll_keeps_dangling_row :
    readAll specExternals 4 (readerOver [t1Row 10 1, t1Row 11 2, t1Row 12 3]) =
      [{ Values := [("(db1.t1.id)", .Number 10), ("(db1.t1.fk)", .Number 1),
            ("(db1.t2.id)", .Number 1), ("(db1.t2.name)", .Varchar "one")] },
        { Values := [("(db1.t1.id)", .Number 11), ("(db1.t1.fk)", .Number 2),
            ("(db1.t2.id)", .Number 3), ("(db1.t2.name)", .Varchar "three")] },
        { Values := [("(db1.t1.id)", .Number 12), ("(db1.t1.fk)", .Number 3),
            ("(db1.t2.id)", .Number 3), ("(db1.t2.name)", .Varchar "three")] }] ∧
    (∀ r ∈ snapshot13.rows, GoMap.get r.cols "id" ≠ some (.Number 2)) :=
  ⟨rfl, by decide⟩

/-! ## Lemmas on the join loop -/

theorem joinLoop_cons (x : Externals) (jointr : jointRowReader) (row : Row)
    (jspec : JoinSpec) (rest : List JoinSpec) :
    joinLoop x jointr row (jspec :: rest) =
      match joinLookup x jointr row jspec with
      | (.found jrow, tr) =>
        ((joinLoop x jointr (mergeValues row jrow) rest).1,
          tr ++ (joinLoop x jointr (mergeValues row jrow) rest).2)
      | (.unsolvedFK, tr) => (.unsolvedFK, tr)
      | (.fail err, tr) => (.fail err, tr)
      | (.panic, tr) => (.panic, tr) := by
  cases hds : jspec.ds with
  | derived n => simp [joinLoop, joinLookup, hds]
  | tableRef t =>
    cases hrt : x.referencedTable jointr.e t with
    | error err => simp [joinLoop, joinLookup, hds, hrt]
    | ok table =>
      cases hjc : x.jointColumnTo jspec.cond table.pk (x.Alias t) with
      | error err => simp [joinLoop, joinLookup, hds, hrt, hjc]
      | ok fkSel =>
        cases hget : GoMap.get row.Values (fkSelector x jointr fkSel) with
        | none =>
          have hget2 := hget
          simp only [fkSelector] at hget2
          simp [joinLoop, joinLookup, hds, hrt, hjc, hget, hget2]
        | some fkVal =>
          have hget2 := hget
          simp only [fkSelector] at hget2
          cases henc : x.EncodeValue fkVal table.pk.colType x.asKey with
          | error err => simp [joinLoop, joinLookup, hds, hrt, hjc, hget, hget2, henc]
          | ok fkEncVal =>
            cases hres : x.Resolve (.tableRef t) jointr.e jointr.snap jointr.params
                (pkOrdOf table fkEncVal) with
            | error err =>
              have hres2 := hres
              simp only [pkOrdOf] at hres2
              simp [joinLoop, joinLookup, hds, hrt, hjc, hget, hget2, henc, hres, hres2,
                pkOrdOf]
            | ok jr =>
              have hres2 := hres
              simp only [pkOrdOf] at hres2
              cases hread : (RowReader.Read jr).1 with
              | error err =>
                by_cases he : err = SqlError.ErrNoMoreEntries
                · simp [joinLoop, joinLookup, hds, hrt, hjc, hget, hget2, henc, hres, hres2,
                    hread, he, pkOrdOf]
                · simp [joinLoop, joinLookup, hds, hrt, hjc, hget, hget2, henc, hres, hres2,
                    hread, he, pkOrdOf]
              | ok jrow =>
                simp [joinLoop, joinLookup, hds, hrt, hjc, hget, hget2, henc, hres, hres2,
                  hread, pkOrdOf]

theorem joinLoop_of_found (x : Externals) (jointr : jointRowReader) (row : Row)
    (jspec : JoinSpec) (rest : List JoinSpec) (jrow : Row)
    (h : (joinLookup x jointr row jspec).1 = .found jrow) :
    joinLoop x jointr row (jspec :: rest) =
      ((joinLoop x jointr (mergeValues row jrow) rest).1,
        (joinLookup x jointr row jspec).2 ++
          (joinLoop x jointr (mergeValues row jrow) rest).2) := by
  rw [joinLoop_cons]
  cases hl : joinLookup x jointr row jspec with
  | mk r tr =>
    rw [hl] at h
    simp only at h
    subst h
    rfl

theorem joinLoop_of_unsolved (x : Externals) (jointr : jointRowReader) (row : Row)
    (jspec : JoinSpec) (rest : List JoinSpec)
    (h : (joinLookup x jointr row jspec).1 = .unsolvedFK) :
    joinLoop x jointr row (jspec :: rest) =
      (.unsolvedFK, (joinLookup x jointr row jspec).2) := by
  rw [joinLoop_cons]
  cases hl : joinLookup x jointr row jspec with
  | mk r tr =>
    rw [hl] at h
    simp only at h
    subst h
    rfl

theorem joinLoop_of_fail (x : Externals) (jointr : jointRowReader) (row : Row)
    (jspec : JoinSpec) (rest : List JoinSpec) (e : SqlError)
    (h : (joinLookup x jointr row jspec).1 = .fail e) :
    joinLoop x jointr row (jspec :: rest) =
      (.fail e, (joinLookup x jointr row jspec).2) := by
  rw [joinLoop_cons]
  cases hl : joinLookup x jointr row jspec with
  | mk r tr =>
    rw [hl] at h
    simp only at h
    subst h
    rfl

theorem joinLoop_of_panic (x : Externals) (jointr : jointRowReader) (row : Row)
    (jspec : JoinSpec) (rest : List JoinSpec)
    (h : (joinLookup x jointr row jspec).1 = .panic) :
    joinLoop x jointr row (jspec :: rest) =
      (.panic, (joinLookup x jointr row jspec).2) := by
  rw [joinLoop_cons]
  cases hl : joinLookup x jointr row jspec with
  | mk r tr =>
    rw [hl] at h
    simp only at h
    subst h
    rfl

theorem joinLoop_append (x : Externals) (jointr : jointRowReader) (row acc : Row)
    (pre rest : List JoinSpec) (h : (joinLoop x jointr row pre).1 = .solved acc) :
    joinLoop x jointr row (pre ++ rest) =
      ((joinLoop x jointr acc rest).1,
        (joinLoop x jointr row pre).2 ++ (joinLoop x jointr acc rest).2) := by
  induction pre generalizing row with
  | nil =>
    simp only [joinLoop] at h
    cases h
    simp [joinLoop]
  | cons j js ih =>
    cases hl : (joinLookup x jointr row j).1 with
    | found jrow =>
      rw [joinLoop_of_found x jointr row j js jrow hl] at h
      have ih2 := ih (mergeValues row jrow) h
      rw [List.cons_append, joinLoop_of_found x jointr row j (js ++ rest) jrow hl, ih2,
        joinLoop_of_found x jointr row j js jrow hl]
      simp
    | unsolvedFK =>
      rw [joinLoop_of_unsolved x jointr row j js hl] at h
      cases h
    | fail e =>
      rw [joinLoop_of_fail x jointr row j js e hl] at h
      cases h
    | panic =>
      rw [joinLoop_of_panic x jointr row j js hl] at h
      cases h

theorem joinLoop_solved_subRows (x : Externals) (jointr : jointRowReader) (row out : Row)
    (joins : List JoinSpec) (h : (joinLoop x jointr row joins).1 = .solved out) :
    out = (subRows x jointr row joins).foldl mergeValues row ∧
      (subRows x jointr row joins).length = joins.length := by
  induction joins generalizing row with
  | nil =>
    simp only [joinLoop] at h
    cases h
    simp [subRows]
  | cons j js ih =>
    cases hl : (joinLookup x jointr row j).1 with
    | found jrow =>
      rw [joinLoop_of_found x jointr row j js jrow hl] at h
      have ih2 := ih (mergeValues row jrow) h
      simp [subRows, hl, ih2.2]
      exact ih2.1
    | unsolvedFK =>
      rw [joinLoop_of_unsolved x jointr row j js hl] at h
      cases h
    | fail e =>
      rw [joinLoop_of_fail x jointr row j js e hl] at h
      cases h
    | panic =>
      rw [joinLoop_of_panic x jointr row j js hl] at h
      cases h

/-! ## Lemmas on the outer loop -/

theorem readLoop_of_solved (x : Externals) (jointr : jointRowReader) (row out : Row)
    (rest : List (Except SqlError Row))
    (h : (joinLoop x jointr row jointr.joins).1 = .solved out) :
    readLoop x jointr (.ok row :: rest) =
      (.ok out, rest, Event.baseRead :: (joinLoop x jointr row jointr.joins).2) := by
  cases hl : joinLoop x jointr row jointr.joins with
  | mk r tr =>
    rw [hl] at h
    simp only at h
    subst h
    simp [readLoop, hl]

theorem readLoop_of_fail (x : Externals) (jointr : jointRowReader) (row : Row)
    (e : SqlError) (rest : List (Except SqlError Row))
    (h : (joinLoop x jointr row jointr.joins).1 = .fail e) :
    readLoop x jointr (.ok row :: rest) =
      (.err e, rest, Event.baseRead :: (joinLoop x jointr row jointr.joins).2) := by
  cases hl : joinLoop x jointr row jointr.joins with
  | mk r tr =>
    rw [hl] at h
    simp only at h
    subst h
    simp [readLoop, hl]

theorem readLoop_of_panic (x : Externals) (jointr : jointRowReader) (row : Row)
    (rest : List (Except SqlError Row))
    (h : (joinLoop x jointr row jointr.joins).1 = .panic) :
    readLoop x jointr (.ok row :: rest) =
      (.panic, rest, Event.baseRead :: (joinLoop x jointr row jointr.joins).2) := by
  cases hl : joinLoop x jointr row jointr.joins with
  | mk r tr =>
    rw [hl] at h
    simp only at h
    subst h
    simp [readLoop, hl]

theorem readLoop_of_unsolved (x : Externals) (jointr : jointRowReader) (row : Row)
    (rest : List (Except SqlError Row))
    (h : (joinLoop x jointr row jointr.joins).1 = .unsolvedFK) :
    readLoop x jointr (.ok row :: rest) =
      ((readLoop x jointr rest).1, (readLoop x jointr rest).2.1,
        (Event.baseRead :: (joinLoop x jointr row jointr.joins).2) ++
          (readLoop x jointr rest).2.2) := by
  cases hl : joinLoop x jointr row jointr.joins with
  | mk r tr =>
    rw [hl] at h
    simp only at h
    subst h
    simp [readLoop, hl]

theorem readLoop_skip (x : Externals) (jointr : jointRowReader) (skipped : List Row)
    (tail : List (Except SqlError Row))
    (hskip : ∀ r ∈ skipped, (joinLoop x jointr r jointr.joins).1 = .unsolvedFK) :
    readLoop x jointr (skipped.map Except.ok ++ tail) =
      ((readLoop x jointr tail).1, (readLoop x jointr tail).2.1,
        skipTrace x jointr skipped ++ (readLoop x jointr tail).2.2) := by
  induction skipped with
  | nil => simp [skipTrace]
  | cons r rs ih =>
    have hr := hskip r (List.mem_cons_self _ _)
    have ih2 := ih (fun q hq => hskip q (List.mem_cons_of_mem _ hq))
    rw [List.map_cons, List.cons_append, readLoop_of_unsolved x jointr r _ hr, ih2]
    simp [skipTrace]

theorem readLoop_ok_inv (x : Externals) (jointr : jointRowReader)
    (pending : List (Except SqlError Row)) (out : Row)
    (h : (readLoop x jointr pending).1 = .ok out) :
    ∃ (skipped : List Row) (base : Row) (rest : List (Except SqlError Row)),
      pending = skipped.map Except.ok ++ Except.ok base :: rest ∧
      (∀ r ∈ skipped, (joinLoop x jointr r jointr.joins).1 = .unsolvedFK) ∧
      (joinLoop x jointr base jointr.joins).1 = .solved out ∧
      (readLoop x jointr pending).2.1 = rest := by
  induction pending with
  | nil => simp [readLoop] at h
  | cons o rest ih =>
    cases o with
    | error e => simp [readLoop] at h
    | ok row =>
      cases hl : (joinLoop x jointr row jointr.joins).1 with
      | solved row' =>
        rw [readLoop_of_solved x jointr row row' rest hl] at h ⊢
        simp only [Outcome.ok.injEq] at h
        subst h
        exact ⟨[], row, rest, by simp, by simp, hl, rfl⟩
      | fail e =>
        rw [readLoop_of_fail x jointr row e rest hl] at h
        cases h
      | panic =>
        rw [readLoop_of_panic x jointr row rest hl] at h
        cases h
      | unsolvedFK =>
        rw [readLoop_of_unsolved x jointr row rest hl] at h ⊢
        obtain ⟨skipped, base, rest', hp, hs, hb, hr⟩ := ih h
        refine ⟨row :: skipped, base, rest', by simp [hp], ?_, hb, hr⟩
        intro r hr'
        rcases List.mem_cons.mp hr' with h1 | h1
        · subst h1
          exact hl
        · exact hs r h1

/-! ## Lemmas on the merge -/

theorem GoMap.get_eq_none_iff {V : Type} (m : GoMap V) (s : String) :
    GoMap.get m s = none ↔ ∀ p ∈ m, p.1 ≠ s := by
  induction m with
  | nil => simp [GoMap.get]
  | cons p rest ih =>
    obtain ⟨k, v⟩ := p
    by_cases h : k = s
    · simp [GoMap.get, h]
    · simp [GoMap.get, h, ih]

theorem GoMap.mem_of_get_eq_some {V : Type} (m : GoMap V) (s : String) (v : V)
    (h : GoMap.get m s = some v) : (s, v) ∈ m := by
  induction m with
  | nil => simp [GoMap.get] at h
  | cons p rest ih =>
    obtain ⟨k, w⟩ := p
    by_cases hk : k = s
    · simp [GoMap.get, hk] at h
      simp [hk, h]
    · simp [GoMap.get, hk] at h
      exact List.mem_cons_of_mem _ (ih h)

theorem mergeValues_get_of_none (row jrow : Row) (s : String)
    (h : GoMap.get jrow.Values s = none) :
    GoMap.get (mergeValues row jrow).Values s = GoMap.get row.Values s := by
  unfold mergeValues
  exact GoMap.get_foldl_set_of_not_mem _ _ _ ((GoMap.get_eq_none_iff _ _).mp h)

theorem mergeValues_get_of_some (row jrow : Row) (s : String) (v : TypedValue)
    (hwf : jrow.WellFormed) (h : GoMap.get jrow.Values s = some v) :
    GoMap.get (mergeValues row jrow).Values s = some v := by
  obtain ⟨pre, post, hsplit⟩ := List.append_of_mem (GoMap.mem_of_get_eq_some _ _ _ h)
  have hnd : ((pre ++ (s, v) :: post).map Prod.fst).Nodup := by
    have := hwf
    unfold Row.WellFormed at this
    rwa [hsplit] at this
  have hpost : ∀ q ∈ post, q.1 ≠ s := by
    intro q hq hqs
    rw [List.map_append, List.map_cons] at hnd
    have h2 := (List.nodup_append.mp hnd).2.1
    have h3 := (List.nodup_cons.mp h2).1
    have h4 : q.1 ∈ post.map Prod.fst := List.mem_map_of_mem Prod.fst hq
    rw [hqs] at h4
    exact h3 h4
  unfold mergeValues
  simp only
  rw [hsplit]
  exact GoMap.get_foldl_set_last pre (s, v) post row.Values hpost

theorem mergeValues_get (row jrow : Row) (hwf : jrow.WellFormed) (s : String) :
    GoMap.get (mergeValues row jrow).Values s =
      match GoMap.get jrow.Values s with
      | some v => some v
      | none => GoMap.get row.Values s := by
  cases h : GoMap.get jrow.Values s with
  | none => exact mergeValues_get_of_none row jrow s h
  | some v => exact mergeValues_get_of_some row jrow s v hwf h

theorem mergeValues_isSome (row jrow : Row) (s : String)
    (h : (GoMap.get row.Values s).isSome = true) :
    (GoMap.get (mergeValues row jrow).Values s).isSome = true := by
  unfold mergeValues
  exact (GoMap.get_foldl_set_isSome _ _ _).mpr (Or.inl h)

theorem foldl_mergeValues_get_of_none (subs : List Row) (row : Row) (s : String)
    (h : ∀ r ∈ subs, GoMap.get r.Values s = none) :
    GoMap.get (subs.foldl mergeValues row).Values s = GoMap.get row.Values s := by
  induction subs generalizing row with
  | nil => rfl
  | cons r rs ih =>
    rw [List.foldl_cons, ih _ (fun q hq => h q (List.mem_cons_of_mem _ hq)),
      mergeValues_get_of_none row r s (h r (List.mem_cons_self _ _))]

theorem foldl_mergeValues_isSome (subs : List Row) (row : Row) (s : String)
    (h : (GoMap.get row.Values s).isSome = true) :
    (GoMap.get (subs.foldl mergeValues row).Values s).isSome = true := by
  induction subs generalizing row with
  | nil => exact h
  | cons r rs ih =>
    rw [List.foldl_cons]
    exact ih _ (mergeValues_isSome row r s h)

theorem foldl_mergeValues_get_last (pre : List Row) (r : Row) (post : List Row) (row : Row)
    (s : String) (hwf : r.WellFormed) (hs : (GoMap.get r.Values s).isSome = true)
    (hpost : ∀ q ∈ post, GoMap.get q.Values s = none) :
    GoMap.get ((pre ++ r :: post).foldl mergeValues row).Values s = GoMap.get r.Values s := by
  rw [List.foldl_append, List.foldl_cons, foldl_mergeValues_get_of_none post _ s hpost]
  obtain ⟨v, hv⟩ := Option.isSome_iff_exists.mp hs
  rw [hv]
  exact mergeValues_get_of_some _ r s v hwf hv

theorem mem_baseRows_append (skipped : List Row) (base : Row)
    (rest : List (Except SqlError Row)) :
    baseRows (skipped.map Except.ok ++ Except.ok base :: rest) =
      skipped ++ base :: baseRows rest := by
  induction skipped with
  | nil => simp [baseRows]
  | cons r rs ih => simp [baseRows, ih]

/-! ## Lemmas on single iterations and on whole calls -/

theorem joinLookup_invalid_column (x : Externals) (jointr : jointRowReader) (acc : Row)
    (j : JoinSpec) (t : TableRef) (table : Table) (fkSel : ColSelector)
    (hds : j.ds = .tableRef t) (hrt : x.referencedTable jointr.e t = .ok table)
    (hjc : x.jointColumnTo j.cond table.pk (x.Alias t) = .ok fkSel)
    (hget : GoMap.get acc.Values (fkSelector x jointr fkSel) = none) :
    joinLookup x jointr acc j =
      (.fail .ErrInvalidJointColumn,
        [Event.referencedTable t, Event.jointColumnTo j.cond table.pk (x.Alias t)]) := by
  simp [joinLookup, hds, hrt, hjc, hget]

theorem joinLookup_condition_error (x : Externals) (jointr : jointRowReader) (acc : Row)
    (j : JoinSpec) (t : TableRef) (table : Table) (err : SqlError)
    (hds : j.ds = .tableRef t) (hrt : x.referencedTable jointr.e t = .ok table)
    (hjc : x.jointColumnTo j.cond table.pk (x.Alias t) = .error err) :
    joinLookup x jointr acc j =
      (.fail err,
        [Event.referencedTable t, Event.jointColumnTo j.cond table.pk (x.Alias t)]) := by
  simp [joinLookup, hds, hrt, hjc]

theorem joinLookup_exhausted (x : Externals) (jointr : jointRowReader) (acc : Row)
    (j : JoinSpec) (t : TableRef) (table : Table) (fkSel : ColSelector)
    (fkVal : TypedValue) (fkEncVal : List Nat) (jr : RowReader)
    (hds : j.ds = .tableRef t) (hrt : x.referencedTable jointr.e t = .ok table)
    (hjc : x.jointColumnTo j.cond table.pk (x.Alias t) = .ok fkSel)
    (hget : GoMap.get acc.Values (fkSelector x jointr fkSel) = some fkVal)
    (henc : x.EncodeValue fkVal table.pk.colType x.asKey = .ok fkEncVal)
    (hres : x.Resolve j.ds jointr.e jointr.snap jointr.params (pkOrdOf table fkEncVal) =
      .ok jr)
    (hread : (RowReader.Read jr).1 = .error .ErrNoMoreEntries) :
    joinLookup x jointr acc j =
      (.unsolvedFK,
        [Event.referencedTable t, Event.jointColumnTo j.cond table.pk (x.Alias t),
          Event.encodeValue fkVal table.pk.colType,
          Event.resolve j.ds (pkOrdOf table fkEncVal) true, Event.subRead j.ds]) := by
  rw [hds] at hres
  simp [joinLookup, hds, hrt, hjc, hget, henc, hres, hread]

theorem joinLookup_of_failure (x : Externals) (jointr : jointRowReader) (acc : Row)
    (j : JoinSpec) (e : SqlError) (h : JoinFailure x jointr acc j e) :
    (joinLookup x jointr acc j).1 = .fail e := by
  cases h with
  | tableResolution t hds h => simp [joinLookup, hds, h]
  | encodeValue t table fkSel fkVal hds hrt hjc hget h =>
    simp [joinLookup, hds, hrt, hjc, hget, h]
  | resolve t table fkSel fkVal fkEncVal hds hrt hjc hget henc h =>
    rw [hds] at h
    simp [joinLookup, hds, hrt, hjc, hget, henc, h]
  | subRead t table fkSel fkVal fkEncVal jr hds hrt hjc hget henc hres h hne =>
    rw [hds] at hres
    simp [joinLookup, hds, hrt, hjc, hget, henc, hres, h, hne]

theorem joinLookup_value_trace (x : Externals) (jointr : jointRowReader) (acc : Row)
    (j : JoinSpec) (t : TableRef) (table : Table) (fkSel : ColSelector)
    (fkVal : TypedValue)
    (hds : j.ds = .tableRef t) (hrt : x.referencedTable jointr.e t = .ok table)
    (hjc : x.jointColumnTo j.cond table.pk (x.Alias t) = .ok fkSel)
    (hget : GoMap.get acc.Values (fkSelector x jointr fkSel) = some fkVal) :
    ∃ tl, (joinLookup x jointr acc j).2 =
      [Event.referencedTable t, Event.jointColumnTo j.cond table.pk (x.Alias t),
        Event.encodeValue fkVal table.pk.colType] ++ tl := by
  cases henc : x.EncodeValue fkVal table.pk.colType x.asKey with
  | error err => exact ⟨[], by simp [joinLookup, hds, hrt, hjc, hget, henc]⟩
  | ok fkEncVal =>
    cases hres : x.Resolve (.tableRef t) jointr.e jointr.snap jointr.params
        (pkOrdOf table fkEncVal) with
    | error err => exact ⟨_, by simp [joinLookup, hds, hrt, hjc, hget, henc, hres]; rfl⟩
    | ok jr => exact ⟨_, by simp [joinLookup, hds, hrt, hjc, hget, henc, hres]; rfl⟩

theorem joinLoop_trace_cons (x : Externals) (jointr : jointRowReader) (row : Row)
    (j : JoinSpec) (rest : List JoinSpec) :
    ∃ tl, (joinLoop x jointr row (j :: rest)).2 = (joinLookup x jointr row j).2 ++ tl := by
  cases hl : (joinLookup x jointr row j).1 with
  | found jrow => exact ⟨_, by rw [joinLoop_of_found x jointr row j rest jrow hl]⟩
  | unsolvedFK => exact ⟨[], by rw [joinLoop_of_unsolved x jointr row j rest hl]; simp⟩
  | fail e => exact ⟨[], by rw [joinLoop_of_fail x jointr row j rest e hl]; simp⟩
  | panic => exact ⟨[], by rw [joinLoop_of_panic x jointr row j rest hl]; simp⟩

theorem Read_eq (x : Externals) (jointr : jointRowReader) :
    jointRowReader.Read x jointr =
      ((readLoop x jointr jointr.rowReader.pending).1,
        withPending jointr (readLoop x jointr jointr.rowReader.pending).2.1,
        (readLoop x jointr jointr.rowReader.pending).2.2) := rfl

theorem Read_of_fail_at (x : Externals) (jointr : jointRowReader) (skipped : List Row)
    (row : Row) (rest : List (Except SqlError Row)) (pre : List JoinSpec) (j : JoinSpec)
    (post : List JoinSpec) (acc : Row) (e : SqlError)
    (hpending : jointr.rowReader.pending = skipped.map Except.ok ++ Except.ok row :: rest)
    (hskip : ∀ r ∈ skipped, (joinLoop x jointr r jointr.joins).1 = .unsolvedFK)
    (hjoins : jointr.joins = pre ++ j :: post)
    (hpre : (joinLoop x jointr row pre).1 = .solved acc)
    (hl : (joinLookup x jointr acc j).1 = .fail e) :
    jointRowReader.Read x jointr =
      (.err e, withPending jointr rest,
        skipTrace x jointr skipped ++
          Event.baseRead :: ((joinLoop x jointr row pre).2 ++ (joinLookup x jointr acc j).2)) := by
  have hrow : joinLoop x jointr row jointr.joins =
      (.fail e, (joinLoop x jointr row pre).2 ++ (joinLookup x jointr acc j).2) := by
    rw [hjoins, joinLoop_append x jointr row acc pre (j :: post) hpre,
      joinLoop_of_fail x jointr acc j post e hl]
  have hfail : (joinLoop x jointr row jointr.joins).1 = .fail e := by rw [hrow]
  rw [Read_eq, hpending, readLoop_skip x jointr skipped _ hskip,
    readLoop_of_fail x jointr row e rest hfail, hrow]

/-! ## Read: claims C11 to C13 -/

/-- C11: when the sub-reader of a join returns a row `jrow`, the loop goes on with the
accumulated row overwritten by it (`mergeValues`): a selector of `jrow` maps to
`jrow`'s value, any other selector keeps its value, none is added or removed.
Consequently a row returned by `Read()` is its base row overwritten by the sub-rows of
the joins in declaration order: a selector that no sub-row holds keeps the base value,
and a selector held by several sub-rows (or by the base row and a sub-row) carries the
value of the last sub-row holding it. Rows are Go maps, so the selectors of a sub-row
are taken pairwise distinct. -/
theorem Read_merge_overwrites (x : Externals) (jointr : jointRowReader) :
    (∀ row jspec rest jrow, (joinLookup x jointr row jspec).1 = .found jrow →
      (joinLoop x jointr row (jspec :: rest)).1 =
        (joinLoop x jointr (mergeValues row jrow) rest).1) ∧
    (∀ row jrow : Row, jrow.WellFormed → ∀ s,
      GoMap.get (mergeValues row jrow).Values s =
        match GoMap.get jrow.Values s with
        | some v => some v
        | none => GoMap.get row.Values s) ∧
    (∀ out, (jointRowReader.Read x jointr).1 = .ok out →
      ∃ base ∈ baseRows jointr.rowReader.pending,
        (subRows x jointr base jointr.joins).length = jointr.joins.length ∧
        out = (subRows x jointr base jointr.joins).foldl mergeValues base ∧
        (∀ s, (∀ r ∈ subRows x jointr base jointr.joins, GoMap.get r.Values s = none) →
          GoMap.get out.Values s = GoMap.get base.Values s) ∧
        (∀ s pre r post, subRows x jointr base jointr.joins = pre ++ r :: post →
          r.WellFormed → (GoMap.get r.Values s).isSome = true →
          (∀ q ∈ post, GoMap.get q.Values s = none) →
          GoMap.get out.Values s = GoMap.get r.Values s)) := by
  refine ⟨?_, ?_, ?_⟩
  · intro row jspec rest jrow h
    rw [joinLoop_of_found x jointr row jspec rest jrow h]
  · intro row jrow hwf s
    exact mergeValues_get row jrow hwf s
  · intro out hout
    rw [Read_eq] at hout
    obtain ⟨skipped, base, rest, hp, _, hb, _⟩ :=
      readLoop_ok_inv x jointr jointr.rowReader.pending out hout
    obtain ⟨hfold, hlen⟩ := joinLoop_solved_subRows x jointr base out jointr.joins hb
    refine ⟨base, ?_, hlen, hfold, ?_, ?_⟩
    · rw [hp, mem_baseRows_append]
      simp
    · intro s hs
      rw [hfold]
      exact foldl_mergeValues_get_of_none _ base s hs
    · intro s pre r post hsplit hwf hsome hpost
      rw [hfold, hsplit]
      exact foldl_mergeValues_get_last pre r post base s hwf hsome hpost

/-- Witness for C11: two joins over `t2` produce the same selectors; the returned row
carries, at `(db1.t2.id)`, the value of the second join's sub-row. -/
theorem Read_merge_overwrites_witness :
    (jointRowReader.Read specExternals collisionReader).1 =
        .ok { Values := [("(db1.t1.id)", .Number 10), ("(db1.t1.fk)", .Number 1),
                ("(db1.t1.fk2)", .Number 3), ("(db1.t2.id)", .Number 3),
                ("(db1.t2.name)", .Varchar "three")] } ∧
    subRows specExternals collisionReader rowTwoKeys collisionReader.joins =
        [{ Values := [("(db1.t2.id)", .Number 1), ("(db1.t2.name)", .Varchar "one")] },
          { Values := [("(db1.t2.id)", .Number 3), ("(db1.t2.name)", .Varchar "three")] }] ∧
    ∃ base ∈ baseRows collisionReader.rowReader.pending,
      (subRows specExternals collisionReader base collisionReader.joins).length =
        collisionReader.joins.length ∧
      (jointRowReader.Read specExternals collisionReader).1 =
        .ok ((subRows specExternals collisionReader base collisionReader.joins).foldl
          mergeValues base) :=
  ⟨rfl, rfl, by
    obtain ⟨base, hmem, hlen, hfold, _, _⟩ :=
      (Read_merge_overwrites specExternals collisionReader).2.2
        { Values := [("(db1.t1.id)", .Number 10), ("(db1.t1.fk)", .Number 1),
            ("(db1.t1.fk2)", .Number 3), ("(db1.t2.id)", .Number 3),
            ("(db1.t2.name)", .Varchar "three")] } rfl
    exact ⟨base, hmem, hlen, by rw [← hfold]; rfl⟩⟩

/-- C12: joins are evaluated in declaration order against the accumulated row. When
the joins before join `j` have each found a sub-row, the row `acc` that `j` looks its
foreign key up in is the base row overwritten by those sub-rows, in order, and by
nothing else: if `acc` holds a value at the selector of `j`'s condition (for instance
one that only an earlier join produced), that value is the one passed to
`EncodeValue`; if it holds none, the loop ends with `ErrInvalidJointColumn`, whatever
the joins after `j` would introduce. -/
theorem joinLoop_declaration_order (x : Externals) (jointr : jointRowReader)
    (row acc : Row) (pre : List JoinSpec) (j : JoinSpec) (post : List JoinSpec)
    (t : TableRef) (table : Table) (fkSel : ColSelector)
    (hpre : (joinLoop x jointr row pre).1 = .solved acc)
    (hds : j.ds = .tableRef t) (hrt : x.referencedTable jointr.e t = .ok table)
    (hjc : x.jointColumnTo j.cond table.pk (x.Alias t) = .ok fkSel) :
    acc = (subRows x jointr row pre).foldl mergeValues row ∧
    (subRows x jointr row pre).length = pre.length ∧
    (GoMap.get acc.Values (fkSelector x jointr fkSel) = none →
      (joinLoop x jointr row (pre ++ j :: post)).1 = .fail .ErrInvalidJointColumn) ∧
    (∀ fkVal, GoMap.get acc.Values (fkSelector x jointr fkSel) = some fkVal →
      ∃ tl, (joinLoop x jointr row (pre ++ j :: post)).2 =
        (joinLoop x jointr row pre).2 ++
          ([Event.referencedTable t, Event.jointColumnTo j.cond table.pk (x.Alias t),
            Event.encodeValue fkVal table.pk.colType] ++ tl)) := by
  obtain ⟨hfold, hlen⟩ := joinLoop_solved_subRows x jointr row acc pre hpre
  refine ⟨hfold, hlen, ?_, ?_⟩
  · intro hget
    have hl := joinLookup_invalid_column x jointr acc j t table fkSel hds hrt hjc hget
    rw [joinLoop_append x jointr row acc pre (j :: post) hpre,
      joinLoop_of_fail x jointr acc j post .ErrInvalidJointColumn (by rw [hl])]
  · intro fkVal hget
    obtain ⟨tl1, h1⟩ := joinLookup_value_trace x jointr acc j t table fkSel fkVal hds hrt hjc hget
    obtain ⟨tl2, h2⟩ := joinLoop_trace_cons x jointr acc j post
    refine ⟨tl1 ++ tl2, ?_⟩
    rw [joinLoop_append x jointr row acc pre (j :: post) hpre]
    simp only [h2, h1, List.append_assoc]

/-- Witness for C12: with the chained joins `a -> b -> c`, the condition of the join
with `c` names `b.cid`, which only the join with `b` produces; `Read()` returns one
row holding the columns of `b` and of `c`. With the two joins in the other order the
call fails with `ErrInvalidJointColumn`. -/
theorem joinLoop_declaration_order_witness :
    (jointRowReader.Read specExternals (chainReader [joinB, joinC])).1 =
        .ok { Values := [("(db1.a.id)", .Number 1), ("(db1.a.bid)", .Number 5),
                ("(db1.b.id)", .Number 5), ("(db1.b.cid)", .Number 7),
                ("(db1.c.id)", .Number 7), ("(db1.c.label)", .Varchar "seven")] } ∧
    (jointRowReader.Read specExternals (chainReader [joinC, joinB])).1 =
        .err .ErrInvalidJointColumn ∧
    (joinLoop specExternals (chainReader [joinC, joinB]) rowA ([] ++ joinC :: [joinB])).1 =
        .fail .ErrInvalidJointColumn ∧
    (∃ tl, (joinLoop specExternals (chainReader [joinB, joinC]) rowA
        ([joinB] ++ joinC :: [])).2 =
      (joinLoop specExternals (chainReader [joinB, joinC]) rowA [joinB]).2 ++
        ([Event.referencedTable { db := "", table := "c", as := "" },
          Event.jointColumnTo joinC.cond tableC.pk
            (specExternals.Alias { db := "", table := "c", as := "" }),
          Event.encodeValue (.Number 7) tableC.pk.colType] ++ tl)) :=
  ⟨rfl, rfl,
    (joinLoop_declaration_order specExternals (chainReader [joinC, joinB]) rowA rowA []
      joinC [joinB] { db := "", table := "c", as := "" } tableC
      { db := "", table := "b", col := "cid" } rfl rfl rfl rfl).2.2.1 rfl,
    (joinLoop_declaration_order specExternals (chainReader [joinB, joinC]) rowA
      { Values := [("(db1.a.id)", .Number 1), ("(db1.a.bid)", .Number 5),
          ("(db1.b.id)", .Number 5), ("(db1.b.cid)", .Number 7)] }
      [joinB] joinC [] { db := "", table := "c", as := "" } tableC
      { db := "", table := "b", col := "cid" } rfl rfl rfl rfl).2.2.2 (.Number 7) rfl⟩

/-- C13: for a base row pulled in a call (after any rows skipped in that call) and a
join reached for it (the joins before it each found a sub-row, giving the accumulated
row `acc`), if the table resolves, the condition yields a selector and `acc` holds no
value at that selector resolved against the base reader's `ImplicitDB` and
`ImplicitTable`, then `Read()` returns no row and `ErrInvalidJointColumn`; the last
calls made are the table resolution and the condition resolution of that join (no key
is encoded, no sub-reader opened for it) and the base reader is left right after that
row (no further row is pulled). -/
theorem Read_invalid_joint_column (x : Externals) (jointr : jointRowReader)
    (skipped : List Row) (row : Row) (rest : List (Except SqlError Row))
    (pre : List JoinSpec) (j : JoinSpec) (post : List JoinSpec) (acc : Row)
    (t : TableRef) (table : Table) (fkSel : ColSelector)
    (hpending : jointr.rowReader.pending = skipped.map Except.ok ++ Except.ok row :: rest)
    (hskip : ∀ r ∈ skipped, (joinLoop x jointr r jointr.joins).1 = .unsolvedFK)
    (hjoins : jointr.joins = pre ++ j :: post)
    (hpre : (joinLoop x jointr row pre).1 = .solved acc)
    (hds : j.ds = .tableRef t) (hrt : x.referencedTable jointr.e t = .ok table)
    (hjc : x.jointColumnTo j.cond table.pk (x.Alias t) = .ok fkSel)
    (hget : GoMap.get acc.Values (fkSelector x jointr fkSel) = none) :
    (jointRowReader.Read x jointr).1 = .err .ErrInvalidJointColumn ∧
    (jointRowReader.Read x jointr).2.1 = withPending jointr rest ∧
    (jointRowReader.Read x jointr).2.2 =
      skipTrace x jointr skipped ++
        Event.baseRead :: ((joinLoop x jointr row pre).2 ++
          [Event.referencedTable t, Event.jointColumnTo j.cond table.pk (x.Alias t)]) := by
  have hl := joinLookup_invalid_column x jointr acc j t table fkSel hds hrt hjc hget
  have h := Read_of_fail_at x jointr skipped row rest pre j post acc .ErrInvalidJointColumn
    hpending hskip hjoins hpre (by rw [hl])
  rw [hl] at h
  rw [h]
  exact ⟨rfl, rfl, rfl⟩

/-- Witness for C13: the join with `c` comes first and names `b.cid`, which the base
row of `a` does not hold. -/
theorem Read_invalid_joint_column_witness :
    (jointRowReader.Read specExternals (chainReader [joinC, joinB])).1 =
        .err .ErrInvalidJointColumn ∧
    (jointRowReader.Read specExternals (chainReader [joinC, joinB])).2.1 =
        withPending (chainReader [joinC, joinB]) [] ∧
    (jointRowReader.Read specExternals (chainReader [joinC, joinB])).2.2 =
      skipTrace specExternals (chainReader [joinC, joinB]) [] ++
        Event.baseRead :: ((joinLoop specExternals (chainReader [joinC, joinB]) rowA []).2 ++
          [Event.referencedTable { db := "", table := "c", as := "" },
            Event.jointColumnTo joinC.cond tableC.pk
              (specExternals.Alias { db := "", table := "c", as := "" })]) :=
  Read_invalid_joint_column specExternals (chainReader [joinC, joinB]) [] rowA [] []
    joinC [joinB] rowA { db := "", table := "c", as := "" } tableC
    { db := "", table := "b", col := "cid" } rfl (by simp) rfl rfl rfl rfl rfl rfl

theorem joinLookup_withPending (x : Externals) (jointr : jointRowReader)
    (p : List (Except SqlError Row)) (row : Row) (j : JoinSpec) :
    joinLookup x (withPending jointr p) row j = joinLookup x jointr row j := rfl

theorem joinLoop_withPending (x : Externals) (jointr : jointRowReader)
    (p : List (Except SqlError Row)) (row : Row) (joins : List JoinSpec) :
    joinLoop x (withPending jointr p) row joins = joinLoop x jointr row joins := by
  induction joins generalizing row with
  | nil => simp [joinLoop]
  | cons j js ih =>
    rw [joinLoop_cons, joinLoop_cons, joinLookup_withPending]
    cases hl : joinLookup x jointr row j with
    | mk r tr =>
      cases r with
      | found jrow => simp only [ih]
      | unsolvedFK => rfl
      | fail e => rfl
      | panic => rfl

theorem subRows_withPending (x : Externals) (jointr : jointRowReader)
    (p : List (Except SqlError Row)) (row : Row) (joins : List JoinSpec) :
    subRows x (withPending jointr p) row joins = subRows x jointr row joins := by
  induction joins generalizing row with
  | nil => simp [subRows]
  | cons j js ih =>
    simp only [subRows, joinLookup_withPending]
    cases hl : (joinLookup x jointr row j).1 with
    | found jrow => simp only [ih]
    | unsolvedFK => rfl
    | fail e => rfl
    | panic => rfl

theorem readLoop_withPending (x : Externals) (jointr : jointRowReader)
    (p l : List (Except SqlError Row)) :
    readLoop x (withPending jointr p) l = readLoop x jointr l := by
  have hj : ∀ row, joinLoop x (withPending jointr p) row (withPending jointr p).joins =
      joinLoop x jointr row jointr.joins := fun row => joinLoop_withPending x jointr p row _
  induction l with
  | nil => simp [readLoop]
  | cons o rest ih =>
    cases o with
    | error e => simp [readLoop]
    | ok row =>
      cases hl : (joinLoop x jointr row jointr.joins).1 with
      | solved row' =>
        rw [readLoop_of_solved x jointr row row' rest hl,
          readLoop_of_solved x (withPending jointr p) row row' rest (by rw [hj, hl]), hj]
      | fail e =>
        rw [readLoop_of_fail x jointr row e rest hl,
          readLoop_of_fail x (withPending jointr p) row e rest (by rw [hj, hl]), hj]
      | panic =>
        rw [readLoop_of_panic x jointr row rest hl,
          readLoop_of_panic x (withPending jointr p) row rest (by rw [hj, hl]), hj]
      | unsolvedFK =>
        rw [readLoop_of_unsolved x jointr row rest hl,
          readLoop_of_unsolved x (withPending jointr p) row rest (by rw [hj, hl]), hj, ih]

theorem Read_withPending (x : Externals) (jointr : jointRowReader)
    (p : List (Except SqlError Row)) :
    jointRowReader.Read x (withPending jointr p) =
      ((readLoop x jointr p).1, withPending jointr (readLoop x jointr p).2.1,
        (readLoop x jointr p).2.2) := by
  rw [Read_eq, readLoop_withPending]
  rfl

/-! ## Read: claims C14 to C17 -/

theorem specJointColumnTo_error (cond : BoolExp) (pk : Column) (tableAlias : String)
    (err : SqlError) (h : specJointColumnTo cond pk tableAlias = .error err) :
    err = .ErrInvalidJointColumn := by
  cases cond with
  | colEq left right =>
    simp only [specJointColumnTo] at h
    split at h
    · cases h
    · split at h
      · cases h
      · cases h
        rfl
  | otherExp n =>
    simp only [specJointColumnTo] at h
    cases h
    rfl

/-- Whatever error `jointColumnTo` returns for the first join of the first row pulled,
`Read()` returns it as it is. -/
theorem Read_condition_error (x : Externals) (jointr : jointRowReader) (row : Row)
    (rest : List (Except SqlError Row)) (j : JoinSpec) (post : List JoinSpec)
    (t : TableRef) (table : Table) (err : SqlError)
    (hpending : jointr.rowReader.pending = Except.ok row :: rest)
    (hjoins : jointr.joins = j :: post)
    (hds : j.ds = .tableRef t) (hrt : x.referencedTable jointr.e t = .ok table)
    (hjc : x.jointColumnTo j.cond table.pk (x.Alias t) = .error err) :
    jointRowReader.Read x jointr =
      (.err err, withPending jointr rest,
        [Event.baseRead, Event.referencedTable t,
          Event.jointColumnTo j.cond table.pk (x.Alias t)]) := by
  have hl := joinLookup_condition_error x jointr row j t table err hds hrt hjc
  have h := Read_of_fail_at x jointr [] row rest [] j post row err
    (by simpa using hpending) (by simp) (by simpa using hjoins) rfl (by rw [hl])
  rw [hl] at h
  rw [h]
  simp [skipTrace, joinLoop]

/-- C14: with `jointColumnTo` as the spec describes it, when the base reader's first
pull yields a row, the first join's table resolves and its condition cannot be
resolved against that table's primary key and alias (`jointColumnTo` fails), the first
`Read()` call returns no row and `ErrInvalidJointColumn`: the error `jointColumnTo`
returned, passed on as it is. -/
theorem Read_condition_not_resolvable (x : Externals) (jointr : jointRowReader) (row : Row)
    (rest : List (Except SqlError Row)) (j : JoinSpec) (post : List JoinSpec)
    (t : TableRef) (table : Table) (err : SqlError)
    (hx : x.jointColumnTo = specJointColumnTo)
    (hpending : jointr.rowReader.pending = Except.ok row :: rest)
    (hjoins : jointr.joins = j :: post)
    (hds : j.ds = .tableRef t) (hrt : x.referencedTable jointr.e t = .ok table)
    (hjc : x.jointColumnTo j.cond table.pk (x.Alias t) = .error err) :
    (jointRowReader.Read x jointr).1 = .err err ∧ err = .ErrInvalidJointColumn := by
  have h := Read_condition_error x jointr row rest j post t table err hpending hjoins hds
    hrt hjc
  rw [hx] at hjc
  exact ⟨by rw [h], specJointColumnTo_error _ _ _ _ hjc⟩

/-- Witness for C14: the condition of the join with `t2` is no equality between
columns. -/
theorem Read_condition_not_resolvable_witness :
    (jointRowReader.Read specExternals { readerOver [t1Row 10 1] with joins := [joinNotEq] }).1 =
        .err .ErrInvalidJointColumn ∧
    SqlError.ErrInvalidJointColumn = SqlError.ErrInvalidJointColumn :=
  Read_condition_not_resolvable specExternals
    { readerOver [t1Row 10 1] with joins := [joinNotEq] } (t1Row 10 1) [] joinNotEq []
    refT2 tableT2 .ErrInvalidJointColumn rfl rfl rfl rfl rfl rfl

/-- C15: for a base row pulled in a call and a join reached for it, if the table
resolution, `EncodeValue` on the foreign-key value, the data source's `Resolve`, or
the sub-reader's `Read` (with an error other than `store.ErrNoMoreEntries`) returns
the error `e`, then `Read()` returns no row and exactly `e`; the call ends with the
calls of that join (nothing follows the failing one) and the base reader is left right
after that row, so no further base row is pulled. And a call that returns an error
returns no row. -/
theorem Read_join_failure (x : Externals) (jointr : jointRowReader)
    (skipped : List Row) (row : Row) (rest : List (Except SqlError Row))
    (pre : List JoinSpec) (j : JoinSpec) (post : List JoinSpec) (acc : Row) (e : SqlError)
    (hpending : jointr.rowReader.pending = skipped.map Except.ok ++ Except.ok row :: rest)
    (hskip : ∀ r ∈ skipped, (joinLoop x jointr r jointr.joins).1 = .unsolvedFK)
    (hjoins : jointr.joins = pre ++ j :: post)
    (hpre : (joinLoop x jointr row pre).1 = .solved acc)
    (hfail : JoinFailure x jointr acc j e) :
    (jointRowReader.Read x jointr).1 = .err e ∧
    (jointRowReader.Read x jointr).2.1 = withPending jointr rest ∧
    (jointRowReader.Read x jointr).2.2 =
      skipTrace x jointr skipped ++
        Event.baseRead :: ((joinLoop x jointr row pre).2 ++ (joinLookup x jointr acc j).2) ∧
    (∀ e' : SqlError, (jointRowReader.Read x jointr).1 = .err e' →
      ∀ r : Row, (jointRowReader.Read x jointr).1 ≠ .ok r) := by
  have h := Read_of_fail_at x jointr skipped row rest pre j post acc e hpending hskip hjoins
    hpre (joinLookup_of_failure x jointr acc j e hfail)
  rw [h]
  refine ⟨rfl, rfl, rfl, ?_⟩
  intro e' _ r hr
  cases hr

/-- Witness for C15: the foreign key of the first row is a string, which `EncodeValue`
refuses; its error comes back and the second row stays unread. -/
theorem Read_join_failure_witness :
    (jointRowReader.Read specExternals (readerOver [rowVarcharKey, t1Row 11 1])).1 =
        .err (.other "unsupported key type") ∧
    (jointRowReader.Read specExternals (readerOver [rowVarcharKey, t1Row 11 1])).2.1 =
        withPending (readerOver [rowVarcharKey, t1Row 11 1]) [.ok (t1Row 11 1)] :=
  have h := Read_join_failure specExternals (readerOver [rowVarcharKey, t1Row 11 1]) []
    rowVarcharKey [.ok (t1Row 11 1)] [] joinT2 [] rowVarcharKey
    (.other "unsupported key type") rfl (by simp) rfl rfl
    (JoinFailure.encodeValue refT2 tableT2 { db := "", table := "t1", col := "fk" }
      (.Varchar "x") rfl rfl rfl rfl rfl)
  ⟨h.1, h.2.1⟩

/-- C16 fails on the code: a call that joins one row opens one sub-reader through
`Resolve`, reads it once and returns without any `Close()` on it, so one sub-reader is
left open on return. -/
theorem Read_leaves_subreader_open :
    (jointRowReader.Read specExternals (readerOver [t1Row 10 1])).2.2 =
      [Event.baseRead, Event.referencedTable refT2,
        Event.jointColumnTo joinT2.cond tableT2.pk "t2",
        Event.encodeValue (.Number 1) "INTEGER",
        Event.resolve (.tableRef refT2)
          { sel := { db := "db1", table := "t2", col := "id" },
            initKeyVal := [0, 0, 0, 0, 0, 0, 0, 1], useInitKeyVal := true } true,
        Event.subRead (.tableRef refT2)] ∧
    subReadersOpened (jointRowReader.Read specExternals (readerOver [t1Row 10 1])).2.2 = 1 ∧
    subReadersClosed (jointRowReader.Read specExternals (readerOver [t1Row 10 1])).2.2 = 0 :=
  ⟨rfl, rfl, rfl⟩

/-- C17: when, for the row the base reader yields next, the sub-reader of a join
reached for it returns `store.ErrNoMoreEntries`, the join loop ends there: its calls
are those of the joins before and the five calls of that join, none for a later join,
whatever the later joins are; and `Read()` returns what it returns on the remaining
base rows (same result, same reader afterwards), its calls being those for the skipped
row followed by those for the remaining rows. So the row is not returned, a failure
that a later join would raise for it is not raised, and the sub-reader's exhaustion is
not what the caller gets. -/
theorem Read_skips_unsolved_row (x : Externals) (jointr : jointRowReader) (row : Row)
    (rest : List (Except SqlError Row)) (pre : List JoinSpec) (j : JoinSpec)
    (post : List JoinSpec) (acc : Row) (t : TableRef) (table : Table)
    (fkSel : ColSelector) (fkVal : TypedValue) (fkEncVal : List Nat) (jr : RowReader)
    (hpending : jointr.rowReader.pending = Except.ok row :: rest)
    (hjoins : jointr.joins = pre ++ j :: post)
    (hpre : (joinLoop x jointr row pre).1 = .solved acc)
    (hds : j.ds = .tableRef t) (hrt : x.referencedTable jointr.e t = .ok table)
    (hjc : x.jointColumnTo j.cond table.pk (x.Alias t) = .ok fkSel)
    (hget : GoMap.get acc.Values (fkSelector x jointr fkSel) = some fkVal)
    (henc : x.EncodeValue fkVal table.pk.colType x.asKey = .ok fkEncVal)
    (hres : x.Resolve j.ds jointr.e jointr.snap jointr.params (pkOrdOf table fkEncVal) =
      .ok jr)
    (hread : (RowReader.Read jr).1 = .error .ErrNoMoreEntries) :
    joinLoop x jointr row jointr.joins =
      (.unsolvedFK,
        (joinLoop x jointr row pre).2 ++
          [Event.referencedTable t, Event.jointColumnTo j.cond table.pk (x.Alias t),
            Event.encodeValue fkVal table.pk.colType,
            Event.resolve j.ds (pkOrdOf table fkEncVal) true, Event.subRead j.ds]) ∧
    (jointRowReader.Read x jointr).1 = (jointRowReader.Read x (withPending jointr rest)).1 ∧
    (jointRowReader.Read x jointr).2.1 = (jointRowReader.Read x (withPending jointr rest)).2.1 ∧
    (jointRowReader.Read x jointr).2.2 =
      (Event.baseRead :: (joinLoop x jointr row jointr.joins).2) ++
        (jointRowReader.Read x (withPending jointr rest)).2.2 := by
  have hl := joinLookup_exhausted x jointr acc j t table fkSel fkVal fkEncVal jr hds hrt hjc
    hget henc hres hread
  have hrow : joinLoop x jointr row jointr.joins =
      (.unsolvedFK, (joinLoop x jointr row pre).2 ++ (joinLookup x jointr acc j).2) := by
    rw [hjoins, joinLoop_append x jointr row acc pre (j :: post) hpre,
      joinLoop_of_unsolved x jointr acc j post (by rw [hl])]
  have hun : (joinLoop x jointr row jointr.joins).1 = .unsolvedFK := by rw [hrow]
  refine ⟨by rw [hrow, hl], ?_, ?_, ?_⟩
  · rw [Read_withPending, Read_eq, hpending, readLoop_of_unsolved x jointr row rest hun]
  · rw [Read_withPending, Read_eq, hpending, readLoop_of_unsolved x jointr row rest hun]
  · rw [Read_withPending, Read_eq, hpending, readLoop_of_unsolved x jointr row rest hun]

/-- Witness for C17: the first row has no match in `t2` at or after its key; the
second join, which would fail on it with `ErrInvalidJointColumn` (the row has no
column `x`), is not evaluated, and the call returns the second row, joined. -/
theorem Read_skips_unsolved_row_witness :
    (joinLoop specExternals skipReader rowDangling [joinBonX]).1 =
        .fail .ErrInvalidJointColumn ∧
    (jointRowReader.Read specExternals skipReader).1 =
        .ok { Values := [("(db1.t1.id)", .Number 11), ("(db1.t1.fk)", .Number 1),
                ("(db1.t1.x)", .Number 3), ("(db1.t2.id)", .Number 1),
                ("(db1.t2.name)", .Varchar "one"), ("(db1.b.id)", .Number 3),
                ("(db1.b.name)", .Varchar "three")] } ∧
    (jointRowReader.Read specExternals skipReader).1 =
        (jointRowReader.Read specExternals (withPending skipReader [.ok rowWithX])).1 ∧
    joinLoop specExternals skipReader rowDangling skipReader.joins =
      (.unsolvedFK,
        (joinLoop specExternals skipReader rowDangling []).2 ++
          [Event.referencedTable refT2,
            Event.jointColumnTo joinT2.cond tableT2.pk (specExternals.Alias refT2),
            Event.encodeValue (.Number 4) tableT2.pk.colType,
            Event.resolve joinT2.ds (pkOrdOf tableT2 [0, 0, 0, 0, 0, 0, 0, 4]) true,
            Event.subRead joinT2.ds]) :=
  have h := Read_skips_unsolved_row specExternals skipReader rowDangling [.ok rowWithX] []
    joinT2 [joinBonX] rowDangling refT2 tableT2 { db := "", table := "t1", col := "fk" }
    (.Number 4) [0, 0, 0, 0, 0, 0, 0, 4]
    { implicitDB := "db1", implicitTable := "t2",
      columns := .ok [("(db1.t2.id)", "INTEGER"), ("(db1.t2.name)", "VARCHAR")],
      pending := [], closeErr := none }
    rfl rfl rfl rfl rfl rfl rfl rfl rfl rfl
  ⟨rfl, rfl, h.2.1, h.1⟩

/-! ## Lemmas on the calls of a `Read()` -/

theorem basePulls_append (a b : List Event) :
    basePulls (a ++ b) = basePulls a + basePulls b := by
  simp [basePulls, List.countP_append]

theorem joinsStarted_append (a b : List Event) :
    joinsStarted (a ++ b) = joinsStarted a + joinsStarted b := by
  simp [joinsStarted, List.countP_append]

theorem subReadersClosed_append (a b : List Event) :
    subReadersClosed (a ++ b) = subReadersClosed a + subReadersClosed b := by
  simp [subReadersClosed, List.countP_append]

theorem joinLookup_counts (x : Externals) (jointr : jointRowReader) (row : Row)
    (j : JoinSpec) :
    basePulls (joinLookup x jointr row j).2 = 0 ∧
    joinsStarted (joinLookup x jointr row j).2 ≤ 1 ∧
    subReadersClosed (joinLookup x jointr row j).2 = 0 := by
  cases hds : j.ds with
  | derived n => simp [joinLookup, hds, basePulls, joinsStarted, subReadersClosed]
  | tableRef t =>
    cases hrt : x.referencedTable jointr.e t with
    | error err => simp [joinLookup, hds, hrt, basePulls, joinsStarted, subReadersClosed]
    | ok table =>
      cases hjc : x.jointColumnTo j.cond table.pk (x.Alias t) with
      | error err =>
        simp [joinLookup, hds, hrt, hjc, basePulls, joinsStarted, subReadersClosed]
      | ok fkSel =>
        cases hget : GoMap.get row.Values (fkSelector x jointr fkSel) with
        | none =>
          simp [joinLookup, hds, hrt, hjc, hget, basePulls, joinsStarted, subReadersClosed]
        | some fkVal =>
          cases henc : x.EncodeValue fkVal table.pk.colType x.asKey with
          | error err =>
            simp [joinLookup, hds, hrt, hjc, hget, henc, basePulls, joinsStarted,
              subReadersClosed]
          | ok fkEncVal =>
            cases hres : x.Resolve (.tableRef t) jointr.e jointr.snap jointr.params
                (pkOrdOf table fkEncVal) with
            | error err =>
              simp [joinLookup, hds, hrt, hjc, hget, henc, hres, basePulls, joinsStarted,
                subReadersClosed]
            | ok jr =>
              simp [joinLookup, hds, hrt, hjc, hget, henc, hres, basePulls, joinsStarted,
                subReadersClosed]

theorem joinLoop_counts (x : Externals) (jointr : jointRowReader) (row : Row)
    (joins : List JoinSpec) :
    basePulls (joinLoop x jointr row joins).2 = 0 ∧
    joinsStarted (joinLoop x jointr row joins).2 ≤ joins.length ∧
    subReadersClosed (joinLoop x jointr row joins).2 = 0 := by
  induction joins generalizing row with
  | nil => simp [joinLoop, basePulls, joinsStarted, subReadersClosed]
  | cons j js ih =>
    obtain ⟨hb, hj, hc⟩ := joinLookup_counts x jointr row j
    cases hl : (joinLookup x jointr row j).1 with
    | found jrow =>
      obtain ⟨ib, ij, ic⟩ := ih (mergeValues row jrow)
      rw [joinLoop_of_found x jointr row j js jrow hl]
      refine ⟨?_, ?_, ?_⟩
      · simp only [basePulls_append, hb, ib]
      · simp only [joinsStarted_append, List.length_cons]
        omega
      · simp only [subReadersClosed_append, hc, ic]
    | unsolvedFK =>
      rw [joinLoop_of_unsolved x jointr row j js hl]
      simp only [List.length_cons]
      exact ⟨hb, by omega, hc⟩
    | fail e =>
      rw [joinLoop_of_fail x jointr row j js e hl]
      simp only [List.length_cons]
      exact ⟨hb, by omega, hc⟩
    | panic =>
      rw [joinLoop_of_panic x jointr row j js hl]
      simp only [List.length_cons]
      exact ⟨hb, by omega, hc⟩

theorem basePulls_cons_baseRead (tr : List Event) :
    basePulls (Event.baseRead :: tr) = basePulls tr + 1 := by
  simp [basePulls]

theorem joinsStarted_cons_baseRead (tr : List Event) :
    joinsStarted (Event.baseRead :: tr) = joinsStarted tr := by
  simp [joinsStarted]

theorem subReadersClosed_cons_baseRead (tr : List Event) :
    subReadersClosed (Event.baseRead :: tr) = subReadersClosed tr := by
  simp [subReadersClosed]

theorem skipTrace_counts (x : Externals) (jointr : jointRowReader) (skipped : List Row) :
    basePulls (skipTrace x jointr skipped) = skipped.length ∧
    joinsStarted (skipTrace x jointr skipped) ≤ skipped.length * jointr.joins.length ∧
    subReadersClosed (skipTrace x jointr skipped) = 0 := by
  induction skipped with
  | nil => simp [skipTrace, basePulls, joinsStarted, subReadersClosed]
  | cons r rs ih =>
    obtain ⟨hb, hj, hc⟩ := joinLoop_counts x jointr r jointr.joins
    obtain ⟨ib, ij, ic⟩ := ih
    refine ⟨?_, ?_, ?_⟩
    · simp only [skipTrace, basePulls_append, basePulls_cons_baseRead, hb, ib,
        List.length_cons]
      omega
    · simp only [skipTrace, joinsStarted_append, joinsStarted_cons_baseRead,
        List.length_cons]
      rw [Nat.add_mul, Nat.one_mul]
      omega
    · simp only [skipTrace, subReadersClosed_append, subReadersClosed_cons_baseRead, hc, ic]

theorem readLoop_counts (x : Externals) (jointr : jointRowReader)
    (l : List (Except SqlError Row)) :
    1 ≤ basePulls (readLoop x jointr l).2.2 ∧
    basePulls (readLoop x jointr l).2.2 ≤ l.length + 1 ∧
    subReadersClosed (readLoop x jointr l).2.2 = 0 := by
  induction l with
  | nil => simp [readLoop, basePulls, subReadersClosed]
  | cons o rest ih =>
    cases o with
    | error e => simp [readLoop, basePulls, subReadersClosed]
    | ok row =>
      obtain ⟨hb, _, hc⟩ := joinLoop_counts x jointr row jointr.joins
      obtain ⟨i1, i2, i3⟩ := ih
      cases hl : (joinLoop x jointr row jointr.joins).1 with
      | solved row' =>
        rw [readLoop_of_solved x jointr row row' rest hl]
        refine ⟨?_, ?_, ?_⟩
        · simp only [basePulls_cons_baseRead, hb]
          omega
        · simp only [basePulls_cons_baseRead, hb, List.length_cons]
          omega
        · simp only [subReadersClosed_cons_baseRead, hc]
      | fail e =>
        rw [readLoop_of_fail x jointr row e rest hl]
        refine ⟨?_, ?_, ?_⟩
        · simp only [basePulls_cons_baseRead, hb]
          omega
        · simp only [basePulls_cons_baseRead, hb, List.length_cons]
          omega
        · simp only [subReadersClosed_cons_baseRead, hc]
      | panic =>
        rw [readLoop_of_panic x jointr row rest hl]
        refine ⟨?_, ?_, ?_⟩
        · simp only [basePulls_cons_baseRead, hb]
          omega
        · simp only [basePulls_cons_baseRead, hb, List.length_cons]
          omega
        · simp only [subReadersClosed_cons_baseRead, hc]
      | unsolvedFK =>
        rw [readLoop_of_unsolved x jointr row rest hl]
        refine ⟨?_, ?_, ?_⟩
        · simp only [basePulls_append, basePulls_cons_baseRead, hb]
          omega
        · simp only [basePulls_append, basePulls_cons_baseRead, hb, List.length_cons]
          omega
        · simp only [subReadersClosed_append, subReadersClosed_cons_baseRead, hc, i3]

/-- No call of `Read()` ever closes a sub-reader. -/
theorem Read_never_closes (x : Externals) (jointr : jointRowReader) :
    subReadersClosed (jointRowReader.Read x jointr).2.2 = 0 := by
  rw [Read_eq]
  exact (readLoop_counts x jointr jointr.rowReader.pending).2.2

theorem readLoop_head_counts (x : Externals) (jointr : jointRowReader)
    (tail : List (Except SqlError Row))
    (htail : ∀ r rest, tail = Except.ok r :: rest →
      (joinLoop x jointr r jointr.joins).1 ≠ .unsolvedFK) :
    basePulls (readLoop x jointr tail).2.2 = 1 ∧
    joinsStarted (readLoop x jointr tail).2.2 ≤ jointr.joins.length ∧
    (readLoop x jointr tail).2.1 = tail.tail := by
  cases tail with
  | nil => simp [readLoop, basePulls, joinsStarted]
  | cons o rest =>
    cases o with
    | error e => simp [readLoop, basePulls, joinsStarted]
    | ok row =>
      obtain ⟨hb, hj, _⟩ := joinLoop_counts x jointr row jointr.joins
      cases hl : (joinLoop x jointr row jointr.joins).1 with
      | solved row' =>
        rw [readLoop_of_solved x jointr row row' rest hl]
        refine ⟨?_, ?_, ?_⟩
        · simp only [basePulls_cons_baseRead, hb]
        · simp only [joinsStarted_cons_baseRead]
          exact hj
        · simp only [List.tail_cons]
      | fail e =>
        rw [readLoop_of_fail x jointr row e rest hl]
        refine ⟨?_, ?_, ?_⟩
        · simp only [basePulls_cons_baseRead, hb]
        · simp only [joinsStarted_cons_baseRead]
          exact hj
        · simp only [List.tail_cons]
      | panic =>
        rw [readLoop_of_panic x jointr row rest hl]
        refine ⟨?_, ?_, ?_⟩
        · simp only [basePulls_cons_baseRead, hb]
        · simp only [joinsStarted_cons_baseRead]
          exact hj
        · simp only [List.tail_cons]
      | unsolvedFK => exact absurd hl (htail row rest rfl)

/-! ## Read: claims C18 and C19 -/

/-- C18: `Read()` is total on every base reader that yields finitely many outcomes
before it is exhausted, and its iteration is bounded: a call pulls from the base
reader at least once and at most once per outcome still to come plus one; a call that
skips `n` rows with an unsolved foreign key and then stops (on a row that is returned
or fails, on a base error, or on exhaustion) pulls exactly `n + 1` times and leaves the
base reader right after the outcome it stopped on; and the join loop starts at most
`len(joins)` joins for any row, hence at most `(n + 1) * len(joins)` in the call. -/
theorem Read_pull_count (x : Externals) (jointr : jointRowReader) (skipped : List Row)
    (tail : List (Except SqlError Row))
    (hpending : jointr.rowReader.pending = skipped.map Except.ok ++ tail)
    (hskip : ∀ r ∈ skipped, (joinLoop x jointr r jointr.joins).1 = .unsolvedFK)
    (htail : ∀ r rest, tail = Except.ok r :: rest →
      (joinLoop x jointr r jointr.joins).1 ≠ .unsolvedFK) :
    basePulls (jointRowReader.Read x jointr).2.2 = skipped.length + 1 ∧
    basePulls (jointRowReader.Read x jointr).2.2 ≤ jointr.rowReader.pending.length + 1 ∧
    (jointRowReader.Read x jointr).2.1 = withPending jointr tail.tail ∧
    (∀ row, joinsStarted (joinLoop x jointr row jointr.joins).2 ≤ jointr.joins.length) ∧
    joinsStarted (jointRowReader.Read x jointr).2.2 ≤
      (skipped.length + 1) * jointr.joins.length := by
  obtain ⟨sb, sj, _⟩ := skipTrace_counts x jointr skipped
  obtain ⟨tb, tj, tt⟩ := readLoop_head_counts x jointr tail htail
  have hbound := (readLoop_counts x jointr jointr.rowReader.pending).2.1
  rw [Read_eq]
  refine ⟨?_, hbound, ?_, fun row => (joinLoop_counts x jointr row jointr.joins).2.1, ?_⟩
  · rw [hpending, readLoop_skip x jointr skipped tail hskip]
    simp only [basePulls_append, sb, tb]
  · rw [hpending, readLoop_skip x jointr skipped tail hskip]
    simp only [tt]
  · rw [hpending, readLoop_skip x jointr skipped tail hskip]
    simp only [joinsStarted_append]
    rw [Nat.add_mul, Nat.one_mul]
    omega

/-- Witness for C18: one row is skipped, the next is returned: two pulls. -/
theorem Read_pull_count_witness :
    basePulls (jointRowReader.Read specExternals skipReader).2.2 = [rowDangling].length + 1 ∧
    basePulls (jointRowReader.Read specExternals skipReader).2.2 ≤
      skipReader.rowReader.pending.length + 1 ∧
    (jointRowReader.Read specExternals skipReader).2.1 =
      withPending skipReader [Except.ok rowWithX].tail ∧
    (∀ row, joinsStarted (joinLoop specExternals skipReader row skipReader.joins).2 ≤
      skipReader.joins.length) ∧
    joinsStarted (jointRowReader.Read specExternals skipReader).2.2 ≤
      ([rowDangling].length + 1) * skipReader.joins.length :=
  Read_pull_count specExternals skipReader [rowDangling] [.ok rowWithX] rfl
    (by
      intro r hr
      rw [List.mem_singleton.mp hr]
      rfl)
    (by
      intro r rest h
      cases h
      decide)

theorem readAll_succ (x : Externals) (n : Nat) (jointr : jointRowReader) :
    readAll x (n + 1) jointr =
      match (jointRowReader.Read x jointr).1 with
      | .ok row => row :: readAll x n (jointRowReader.Read x jointr).2.1
      | _ => [] := by
  rcases h : jointRowReader.Read x jointr with ⟨r, jr, tr⟩
  cases r <;> simp [readAll, h]

theorem withPending_self (jointr : jointRowReader) :
    withPending jointr jointr.rowReader.pending = jointr := rfl

theorem readAll_sublist (x : Externals) (jointr : jointRowReader) (n : Nat)
    (p : List (Except SqlError Row)) :
    ∃ sub : List Row, sub.Sublist (baseRows p) ∧
      List.Forall₂ (fun base out => (joinLoop x jointr base jointr.joins).1 = .solved out)
        sub (readAll x n (withPending jointr p)) := by
  induction n generalizing p with
  | zero => exact ⟨[], List.nil_sublist _, by simp [readAll]⟩
  | succ n ih =>
    rw [readAll_succ, Read_withPending]
    cases hr : (readLoop x jointr p).1 with
    | err e => exact ⟨[], List.nil_sublist _, by simp⟩
    | panic => exact ⟨[], List.nil_sublist _, by simp⟩
    | ok out =>
      obtain ⟨skipped, base, rest, hp, _, hb, hrest⟩ := readLoop_ok_inv x jointr p out hr
      obtain ⟨sub, hsub, hall⟩ := ih rest
      refine ⟨base :: sub, ?_, ?_⟩
      · rw [hp, mem_baseRows_append]
        exact (List.Sublist.cons₂ base hsub).trans (List.sublist_append_right skipped _)
      · simp only [hrest]
        exact List.Forall₂.cons hb hall

/-- C19: the rows returned by successive `Read()` calls are an order-preserving
selection of the rows of the base stream: they correspond one to one, in order, to a
sublist of the rows the base reader had still to yield, each returned row being the
result of the join loop on its base row, that is, the base row overwritten by the
sub-rows of its joins; so it holds every selector of its base row, with the base value
at every selector that no sub-row holds. -/
theorem readAll_order_preserving_filter (x : Externals) (jointr : jointRowReader) (n : Nat) :
    ∃ sub : List Row, sub.Sublist (baseRows jointr.rowReader.pending) ∧
      List.Forall₂
        (fun base out =>
          (joinLoop x jointr base jointr.joins).1 = .solved out ∧
          out = (subRows x jointr base jointr.joins).foldl mergeValues base ∧
          (∀ s, (GoMap.get base.Values s).isSome = true →
            (GoMap.get out.Values s).isSome = true) ∧
          (∀ s, (∀ r ∈ subRows x jointr base jointr.joins, GoMap.get r.Values s = none) →
            GoMap.get out.Values s = GoMap.get base.Values s))
        sub (readAll x n jointr) := by
  obtain ⟨sub, hsub, hall⟩ := readAll_sublist x jointr n jointr.rowReader.pending
  rw [withPending_self] at hall
  refine ⟨sub, hsub, hall.imp ?_⟩
  intro base out hb
  obtain ⟨hfold, _⟩ := joinLoop_solved_subRows x jointr base out jointr.joins hb
  refine ⟨hb, hfold, ?_, ?_⟩
  · intro s hs
    rw [hfold]
    exact foldl_mergeValues_isSome _ base s hs
  · intro s hs
    rw [hfold]
    exact foldl_mergeValues_get_of_none _ base s hs

/-- Witness for C19: of the base rows with foreign keys 1, 4 and 3, the first and the
third are returned, in that order, each with its own columns kept. -/
theorem readAll_order_preserving_filter_witness :
    readAll specExternals 4 (readerOver [t1Row 10 1, t1Row 11 4, t1Row 12 3]) =
      [{ Values := [("(db1.t1.id)", .Number 10), ("(db1.t1.fk)", .Number 1),
            ("(db1.t2.id)", .Number 1), ("(db1.t2.name)", .Varchar "one")] },
        { Values := [("(db1.t1.id)", .Number 12), ("(db1.t1.fk)", .Number 3),
            ("(db1.t2.id)", .Number 3), ("(db1.t2.name)", .Varchar "three")] }] ∧
    ∃ sub : List Row,
      sub.Sublist (baseRows (readerOver [t1Row 10 1, t1Row 11 4, t1Row 12 3]).rowReader.pending) ∧
      List.Forall₂
        (fun base out =>
          (joinLoop specExternals (readerOver [t1Row 10 1, t1Row 11 4, t1Row 12 3]) base
            (readerOver [t1Row 10 1, t1Row 11 4, t1Row 12 3]).joins).1 = .solved out)
        sub (readAll specExternals 4 (readerOver [t1Row 10 1, t1Row 11 4, t1Row 12 3])) :=
  ⟨rfl, by
    obtain ⟨sub, hsub, hall⟩ := readAll_order_preserving_filter specExternals
      (readerOver [t1Row 10 1, t1Row 11 4, t1Row 12 3]) 4
    exact ⟨sub, hsub, hall.imp fun _ _ h => h.1⟩⟩

/-! ## Read: claim C10 -/

/-- C10: whenever a pull from the base reader inside a call returns an error `err`
(exhaustion included), be it the first pull of the call or a pull that follows rows
skipped for an unsolved foreign key, `Read()` returns no row and exactly `err`. That
pull is the last call made: after it no table is resolved, no join condition
evaluated and no sub-reader opened, so a call whose first pull fails makes that one
call only; and the base reader is left as the failing pull left it. -/
theorem Read_base_error (x : Externals) (jointr : jointRowReader) (skipped : List Row)
    (tail : List (Except SqlError Row)) (err : SqlError)
    (hpending : jointr.rowReader.pending = skipped.map Except.ok ++ tail)
    (hskip : ∀ r ∈ skipped, (joinLoop x jointr r jointr.joins).1 = .unsolvedFK)
    (h : (RowReader.Read (withPending jointr tail).rowReader).1 = .error err) :
    (jointRowReader.Read x jointr).1 = .err err ∧
    (jointRowReader.Read x jointr).2.2 = skipTrace x jointr skipped ++ [Event.baseRead] ∧
    (skipped = [] → (jointRowReader.Read x jointr).2.2 = [Event.baseRead]) ∧
    (jointRowReader.Read x jointr).2.1.rowReader =
      (RowReader.Read (withPending jointr tail).rowReader).2 := by
  have hloop : readLoop x jointr tail = (.err err, tail.tail, [Event.baseRead]) := by
    cases tail with
    | nil =>
      simp only [RowReader.Read, withPending] at h
      cases h
      simp [readLoop]
    | cons o rest =>
      simp only [RowReader.Read, withPending] at h
      subst h
      simp [readLoop]
  have hread : jointRowReader.Read x jointr =
      (.err err, withPending jointr tail.tail, skipTrace x jointr skipped ++ [Event.baseRead]) := by
    rw [Read_eq, hpending, readLoop_skip x jointr skipped tail hskip, hloop]
  rw [hread]
  refine ⟨rfl, rfl, ?_, ?_⟩
  · intro hs
    subst hs
    simp [skipTrace]
  · cases tail with
    | nil => rfl
    | cons o rest => rfl

/-- Witness for C10: the base reader fails on the pull that follows a skipped row; and
a base reader that fails on the first pull of the call. -/
theorem Read_base_error_witness :
    ((jointRowReader.Read specExternals failingAfterSkip).1 = .err (.other "read failed") ∧
      (jointRowReader.Read specExternals failingAfterSkip).2.2 =
        skipTrace specExternals failingAfterSkip [rowDangling] ++ [Event.baseRead] ∧
      (jointRowReader.Read specExternals failingAfterSkip).2.1.rowReader.pending =
        [.ok (t1Row 10 1)]) ∧
    ((jointRowReader.Read specExternals { readerOver [] with rowReader := failingBase }).1 =
        .err (.other "read failed") ∧
      (jointRowReader.Read specExternals { readerOver [] with rowReader := failingBase }).2.2 =
        [Event.baseRead]) :=
  have h1 := Read_base_error specExternals failingAfterSkip [rowDangling]
    [.error (.other "read failed"), .ok (t1Row 10 1)] (.other "read failed") rfl
    (by
      intro r hr
      rw [List.mem_singleton.mp hr]
      rfl)
    rfl
  have h2 := Read_base_error specExternals { readerOver [] with rowReader := failingBase } []
    [.error (.other "read failed"), .ok (t1Row 10 1)] (.other "read failed") rfl
    (by simp) rfl
  ⟨⟨h1.1, h1.2.1, by rw [h1.2.2.2]; rfl⟩, ⟨h2.1, h2.2.2.1 rfl⟩⟩

end Sql
